import Mathlib

/-!
Verification of the transform pipeline of `src/atomic_yaml_to_md.py`.

The Python source is shallowly embedded: strings are Lean `String`s
(lists of characters), Python `None`-able values are `Option`s, and the
regex operations of `slugify_github_anchor` are spelled out as explicit
character-list transformations.  Character classes (`\w`, `\s`,
`str.lower`, `str.strip`) are modelled at ASCII level, matching the
ASCII headings the tool is documented to handle.
-/

namespace AtomicMd

/-- ASCII model of the regex class `\w`: letters, digits, underscore. -/
def isWordChar (c : Char) : Bool := c.isAlphanum || c == '_'

/-- Characters kept by the substitution `re.sub(r"[^\w\s-]", "", s)`:
word characters, whitespace, and hyphens. -/
def keepChar (c : Char) : Bool := isWordChar c || c.isWhitespace || c == '-'

/-- Python `str.strip()` on a character list: drop whitespace from both ends. -/
def stripChars (l : List Char) : List Char :=
  ((l.dropWhile Char.isWhitespace).reverse.dropWhile Char.isWhitespace).reverse

/-- Python `str.strip()` on strings. -/
def pyStrip (s : String) : String := String.mk (stripChars s.data)

/-- `re.sub(r"[^\w\s-]", "", s)`: keep only word chars, whitespace, hyphens. -/
def removeNonWord (l : List Char) : List Char := l.filter keepChar

/-- `s.replace(".", "")`: delete every dot. -/
def removeDots (l : List Char) : List Char := l.filter (fun c => c != '.')

/-- `re.sub(r"\s+", "-", s)`: replace each maximal whitespace run by one
hyphen.  The boolean flag records whether the previous character was
whitespace (i.e. we are inside a run already replaced). -/
def subWs : List Char → Bool → List Char
  | [], _ => []
  | c :: rest, prev =>
    if c.isWhitespace then
      if prev then subWs rest true else '-' :: subWs rest true
    else c :: subWs rest false

/-- `re.sub(r"-+", "-", s)`: collapse each run of hyphens to one hyphen.
The boolean flag records whether the previous character was a hyphen. -/
def subHy : List Char → Bool → List Char
  | [], _ => []
  | c :: rest, prev =>
    if c = '-' then
      if prev then subHy rest true else '-' :: subHy rest true
    else c :: subHy rest false

/-- The pipeline of `slugify_github_anchor` on character lists:
strip, lowercase, remove non-word specials, remove dots, whitespace
runs to hyphens, collapse hyphen runs. -/
def slugChars (l : List Char) : List Char :=
  subHy (subWs (removeDots (removeNonWord ((stripChars l).map Char.toLower))) false) false

/-- `slugify_github_anchor` from the source. -/
def slugify_github_anchor (s : String) : String := String.mk (slugChars s.data)

/-- Variant of `slugify_github_anchor` with the explicit dot-removal step
(`s.replace(".", "")`) deleted, for the redundancy claim. -/
def slugify_github_anchor_nodot (s : String) : String :=
  String.mk (subHy (subWs (removeNonWord ((stripChars s.data).map Char.toLower)) false) false)

end AtomicMd

namespace AtomicMd

/-- The dot-removal step is a no-op after the non-word filter: every dot
was already removed by `removeNonWord`. -/
theorem removeDots_removeNonWord (l : List Char) :
    removeDots (removeNonWord l) = removeNonWord l := by
  unfold removeDots removeNonWord
  rw [List.filter_eq_self]
  intro c hc
  have hk : keepChar c = true := (List.mem_filter.mp hc).2
  have hne : c ≠ '.' := by
    intro h
    subst h
    exact absurd hk (by decide)
  simpa using hne

/-- Claim C9: the explicit dot-removal step of the anchor slugger is
redundant; deleting it yields the same function. -/
theorem slugify_github_anchor_dot_removal_redundant (s : String) :
    slugify_github_anchor s = slugify_github_anchor_nodot s := by
  unfold slugify_github_anchor slugify_github_anchor_nodot slugChars
  rw [removeDots_removeNonWord]

/-- Lowercasing with `Char.toLower` is idempotent. -/
theorem char_toLower_idem (c : Char) : c.toLower.toLower = c.toLower := by
  by_cases h : c.toNat ≥ 65 ∧ c.toNat ≤ 90
  · have h1 : c.toLower = Char.ofNat (c.toNat + 32) := by
      unfold Char.toLower
      rw [if_pos h]
    rw [h1]
    have key : ∀ n, n < 91 → 65 ≤ n →
        (Char.ofNat (n + 32)).toLower = Char.ofNat (n + 32) := by decide
    exact key c.toNat (by omega) h.1
  · have h1 : c.toLower = c := by
      unfold Char.toLower
      rw [if_neg h]
    rw [h1, h1]
/-- Unfolding lemma for `subWs` on a cons cell. -/
theorem subWs_cons (a : Char) (rest : List Char) (b : Bool) :
    subWs (a :: rest) b =
      if a.isWhitespace then
        (if b then subWs rest true else '-' :: subWs rest true)
      else a :: subWs rest false := rfl

/-- Unfolding lemma for `subHy` on a cons cell. -/
theorem subHy_cons (a : Char) (rest : List Char) (b : Bool) :
    subHy (a :: rest) b =
      if a = '-' then
        (if b then subHy rest true else '-' :: subHy rest true)
      else a :: subHy rest false := rfl

/-- Every character of `subWs l b` is a hyphen or a non-whitespace
character of `l`. -/
theorem mem_subWs (l : List Char) (b : Bool) (c : Char) (h : c ∈ subWs l b) :
    c = '-' ∨ (c ∈ l ∧ c.isWhitespace = false) := by
  induction l generalizing b with
  | nil =>
    rw [show subWs [] b = [] from rfl] at h
    simp at h
  | cons a rest ih =>
    rw [subWs_cons] at h
    by_cases ha : a.isWhitespace
    · rw [if_pos ha] at h
      rcases b with _ | _
      · rw [if_neg (by simp)] at h
        rcases List.mem_cons.mp h with h1 | h1
        · exact Or.inl h1
        · rcases ih true h1 with h2 | h2
          · exact Or.inl h2
          · exact Or.inr ⟨List.mem_cons_of_mem a h2.1, h2.2⟩
      · rw [if_pos rfl] at h
        rcases ih true h with h2 | h2
        · exact Or.inl h2
        · exact Or.inr ⟨List.mem_cons_of_mem a h2.1, h2.2⟩
    · rw [if_neg ha] at h
      rcases List.mem_cons.mp h with h1 | h1
      · refine Or.inr ⟨?_, ?_⟩
        · rw [h1]
          exact List.mem_cons_self a rest
        · rw [h1]
          simpa using ha
      · rcases ih false h1 with h2 | h2
        · exact Or.inl h2
        · exact Or.inr ⟨List.mem_cons_of_mem a h2.1, h2.2⟩

/-- Every character of `subHy l b` is a hyphen or a character of `l`. -/
theorem mem_subHy (l : List Char) (b : Bool) (c : Char) (h : c ∈ subHy l b) :
    c = '-' ∨ c ∈ l := by
  induction l generalizing b with
  | nil =>
    rw [show subHy [] b = [] from rfl] at h
    simp at h
  | cons a rest ih =>
    rw [subHy_cons] at h
    by_cases ha : a = '-'
    · rw [if_pos ha] at h
      rcases b with _ | _
      · rw [if_neg (by simp)] at h
        rcases List.mem_cons.mp h with h1 | h1
        · exact Or.inl h1
        · rcases ih true h1 with h2 | h2
          · exact Or.inl h2
          · exact Or.inr (List.mem_cons_of_mem a h2)
      · rw [if_pos rfl] at h
        rcases ih true h with h2 | h2
        · exact Or.inl h2
        · exact Or.inr (List.mem_cons_of_mem a h2)
    · rw [if_neg ha] at h
      rcases List.mem_cons.mp h with h1 | h1
      · refine Or.inr ?_
        rw [h1]
        exact List.mem_cons_self a rest
      · rcases ih false h1 with h2 | h2
        · exact Or.inl h2
        · exact Or.inr (List.mem_cons_of_mem a h2)

/-- `subWs` is the identity on whitespace-free lists. -/
theorem subWs_eq_self (l : List Char) (b : Bool)
    (h : ∀ c ∈ l, c.isWhitespace = false) : subWs l b = l := by
  induction l generalizing b with
  | nil => rfl
  | cons a rest ih =>
    rw [subWs_cons, if_neg (by simp [h a (List.mem_cons_self a rest)])]
    rw [ih false (fun c hc => h c (List.mem_cons_of_mem a hc))]

/-- `subHy` is idempotent. -/
theorem subHy_idem (l : List Char) (b : Bool) : subHy (subHy l b) b = subHy l b := by
  induction l generalizing b with
  | nil => rfl
  | cons a rest ih =>
    rw [subHy_cons]
    by_cases ha : a = '-'
    · rw [if_pos ha]
      rcases b with _ | _
      · rw [if_neg (by simp), subHy_cons, if_pos rfl, if_neg (by simp), ih true]
      · rw [if_pos rfl]
        exact ih true
    · rw [if_neg ha, subHy_cons, if_neg ha, ih false]

/-- `dropWhile` is the identity when no element satisfies the predicate. -/
theorem dropWhile_eq_self_of (p : Char → Bool) (l : List Char)
    (h : ∀ c ∈ l, p c = false) : l.dropWhile p = l := by
  cases l with
  | nil => rfl
  | cons a rest =>
    rw [List.dropWhile_cons, if_neg (by simp [h a (List.mem_cons_self a rest)])]

/-- `stripChars` is the identity on whitespace-free lists. -/
theorem stripChars_eq_self (l : List Char)
    (h : ∀ c ∈ l, c.isWhitespace = false) : stripChars l = l := by
  unfold stripChars
  rw [dropWhile_eq_self_of _ _ h]
  rw [dropWhile_eq_self_of _ _ (fun c hc => h c (List.mem_reverse.mp hc))]
  exact List.reverse_reverse l

/-- Characters of the slug output: hyphens or lowercase-fixed word
characters that are not whitespace and not dots. -/
def goodOut (c : Char) : Prop :=
  c = '-' ∨ (isWordChar c = true ∧ c.isWhitespace = false ∧ c ≠ '.' ∧ c.toLower = c)

/-- Every character of `slugChars l` satisfies `goodOut`. -/
theorem slugChars_good (l : List Char) (c : Char) (h : c ∈ slugChars l) : goodOut c := by
  unfold slugChars at h
  rcases mem_subHy _ _ _ h with h1 | h1
  · exact Or.inl h1
  rcases mem_subWs _ _ _ h1 with h2 | h2
  · exact Or.inl h2
  obtain ⟨hK, hws⟩ := h2
  have hK1 := List.mem_filter.mp hK
  have hne : c ≠ '.' := by simpa using hK1.2
  have hK2 := List.mem_filter.mp hK1.1
  have hkeep : keepChar c = true := hK2.2
  obtain ⟨y, _, hy⟩ := List.mem_map.mp hK2.1
  have hfix : c.toLower = c := by
    rw [← hy]
    exact char_toLower_idem y
  unfold keepChar at hkeep
  rcases Bool.or_eq_true_iff.mp hkeep with hk1 | hk1
  · rcases Bool.or_eq_true_iff.mp hk1 with hk2 | hk2
    · exact Or.inr ⟨hk2, hws, hne, hfix⟩
    · rw [hk2] at hws
      exact absurd hws (by simp)
  · exact Or.inl (by simpa using hk1)

/-- `goodOut` characters are not whitespace. -/
theorem goodOut_not_ws (c : Char) (h : goodOut c) : c.isWhitespace = false := by
  rcases h with h | h
  · rw [h]
    decide
  · exact h.2.1

/-- Map is the identity when the function fixes every element. -/
theorem map_eq_self_of (f : Char → Char) (l : List Char)
    (h : ∀ c ∈ l, f c = c) : l.map f = l := by
  induction l with
  | nil => rfl
  | cons a rest ih =>
    rw [List.map_cons, h a (List.mem_cons_self a rest),
      ih (fun c hc => h c (List.mem_cons_of_mem a hc))]

/-- Idempotence of the slug pipeline on character lists. -/
theorem slugChars_idem (l : List Char) : slugChars (slugChars l) = slugChars l := by
  have hg : ∀ c ∈ slugChars l, goodOut c := slugChars_good l
  have hws : ∀ c ∈ slugChars l, c.isWhitespace = false :=
    fun c hc => goodOut_not_ws c (hg c hc)
  have h1 : stripChars (slugChars l) = slugChars l := stripChars_eq_self _ hws
  have h2 : (slugChars l).map Char.toLower = slugChars l := by
    apply map_eq_self_of
    intro c hc
    rcases hg c hc with h | h
    · rw [h]
      decide
    · exact h.2.2.2
  have h3 : removeNonWord (slugChars l) = slugChars l := by
    unfold removeNonWord
    rw [List.filter_eq_self]
    intro c hc
    rcases hg c hc with h | h
    · rw [h]
      decide
    · unfold keepChar
      rw [h.1]
      simp
  have h4 : removeDots (slugChars l) = slugChars l := by
    unfold removeDots
    rw [List.filter_eq_self]
    intro c hc
    rcases hg c hc with h | h
    · rw [h]
      decide
    · simpa using h.2.2.1
  have h5 : subWs (slugChars l) false = slugChars l := subWs_eq_self _ _ hws
  calc slugChars (slugChars l)
      = subHy (subWs (removeDots (removeNonWord
          ((stripChars (slugChars l)).map Char.toLower))) false) false := rfl
    _ = subHy (slugChars l) false := by rw [h1, h2, h3, h4, h5]
    _ = slugChars l :=
        subHy_idem (subWs (removeDots (removeNonWord
          ((stripChars l).map Char.toLower))) false) false

/-- Claim C4: the anchor slugger is idempotent. -/
theorem slugify_github_anchor_idem (s : String) :
    slugify_github_anchor (slugify_github_anchor s) = slugify_github_anchor s :=
  congrArg String.mk (slugChars_idem s.data)


/-- Claim C1, counterexample: on the heading from the spec the slugger
does not return the spec's claimed string (the final hyphen-run collapse
merges the `---` produced by `" - "`). -/
theorem slug_atomic_example_ne_spec :
    slugify_github_anchor "Atomic Test #1 - Install net.exe" ≠ "atomic-test-1---install-netexe" := by
  decide

/-- Claim C1, amended: the slugger maps the heading
"Atomic Test #1 - Install net.exe" to "atomic-test-1-install-netexe"
(dot removal merges `net` and `exe`, `#` is stripped, whitespace runs
become hyphens, and hyphen runs are collapsed to a single hyphen). -/
theorem slug_atomic_example_eq :
    slugify_github_anchor "Atomic Test #1 - Install net.exe" = "atomic-test-1-install-netexe" := by
  decide

end AtomicMd
namespace AtomicMd

/-- `md_escape_inline` from the source: `None` becomes the empty string,
otherwise stringify and strip surrounding whitespace. -/
def md_escape_inline (s : Option String) : String :=
  match s with
  | none => ""
  | some v => pyStrip v

/-- Per-character action of CPython `html.escape` with `quote=True`:
the five special characters become entities, all others are kept. -/
def escChar (c : Char) : List Char :=
  if c = '&' then "&amp;".data
  else if c = '<' then "&lt;".data
  else if c = '>' then "&gt;".data
  else if c = '"' then "&quot;".data
  else if c = Char.ofNat 39 then "&#x27;".data
  else [c]

/-- `html.escape(s)` (quote=True), as the character-wise map `escChar`. -/
def htmlEscape (s : String) : String := String.mk (s.data.flatMap escChar)

/-- Per-character action of `.replace("\\", "&#92;")`. -/
def bsChar (c : Char) : List Char := if c = '\\' then "&#92;".data else [c]

/-- `s.replace("\\", "&#92;")`. -/
def replaceBackslash (s : String) : String := String.mk (s.data.flatMap bsChar)

/-- `md_escape_table` from the source: `None` becomes the empty string,
otherwise stringify, strip, HTML-escape, then replace backslashes. -/
def md_escape_table (s : Option String) : String :=
  match s with
  | none => ""
  | some v => replaceBackslash (htmlEscape (pyStrip v))

/-- One-pass combined escape map: each source character is escaped by
exactly one of the two policies, exactly once. -/
def escOnce (c : Char) : List Char := if c = '\\' then "&#92;".data else escChar c

/-- The backslash substitution after HTML-escaping acts on each original
character exactly once: entities introduced by `escChar` contain no
backslash, so nothing is escaped twice. -/
theorem escChar_flatMap_bsChar (c : Char) : (escChar c).flatMap bsChar = escOnce c := by
  by_cases h0 : c = '\\'
  · subst h0
    decide
  by_cases h1 : c = '&'
  · subst h1
    decide
  by_cases h2 : c = '<'
  · subst h2
    decide
  by_cases h3 : c = '>'
  · subst h3
    decide
  by_cases h4 : c = '"'
  · subst h4
    decide
  by_cases h5 : c = Char.ofNat 39
  · subst h5
    decide
  unfold escOnce escChar
  rw [if_neg h0, if_neg h1, if_neg h2, if_neg h3, if_neg h4, if_neg h5]
  simp [bsChar, h0]

/-- Composition of the two escape passes equals the one-pass map. -/
theorem flatMap_escChar_bsChar (l : List Char) :
    (l.flatMap escChar).flatMap bsChar = l.flatMap escOnce := by
  induction l with
  | nil => rfl
  | cons a rest ih =>
    rw [List.flatMap_cons, List.flatMap_append, ih, escChar_flatMap_bsChar,
      ← List.flatMap_cons]

/-- Claim C3: the table-cell escaper maps `None` to the empty string;
otherwise it stringifies, trims, HTML-escapes and then replaces each
backslash with `&#92;`, each step exactly once and in that order (the
composition is a single pass over the characters, so nothing is
double-escaped); in particular a backslash followed by an ampersand
renders as `&#92;` then `&amp;`. -/
theorem md_escape_table_spec :
    md_escape_table none = "" ∧
    (∀ s : String,
      md_escape_table (some s) = String.mk ((pyStrip s).data.flatMap escOnce)) ∧
    md_escape_table (some "a\\&b") = "a&#92;&amp;b" := by
  refine ⟨rfl, ?_, by decide⟩
  intro s
  show String.mk (((pyStrip s).data.flatMap escChar).flatMap bsChar) = _
  rw [flatMap_escChar_bsChar]

/-- Python ASCII `str.lower` on a whole string. -/
def pyLowerStr (s : String) : String := String.mk (s.data.map Char.toLower)

/-- `p[:1].upper() + p[1:]`: capitalize the first character, keep the rest. -/
def capFirst : List Char → List Char
  | [] => []
  | c :: rest => c.toUpper :: rest

/-- The inner `titlecase` helper of `fmt_supported_platforms`: strip the
tag, render a case-insensitive `macos` as `macOS`, else capitalize the
first character. -/
def titlecase (p : String) : String :=
  let q := pyStrip p
  if pyLowerStr q = "macos" then "macOS" else String.mk (capFirst q.data)

/-- `fmt_supported_platforms` from the source. -/
def fmt_supported_platforms (platforms : List String) : String :=
  if platforms = [] then ""
  else String.intercalate ", " (platforms.map titlecase)

/-- Modelled from the claim's words (C7): title-case each tag with no
trimming, mapping a tag equal to `macos` case-insensitively to `macOS`. -/
def titlecase_claimed (p : String) : String :=
  if pyLowerStr p = "macos" then "macOS" else String.mk (capFirst p.data)

/-- Modelled from the claim's words (C7): join the untrimmed title-cased
tags with a comma and space. -/
def fmt_platforms_claimed (platforms : List String) : String :=
  if platforms = [] then ""
  else String.intercalate ", " (platforms.map titlecase_claimed)

/-- Claim C7, counterexample: on the tag list `["windows "]` (trailing
space) the source formatter strips the tag and returns `"Windows"`,
while the claim's untrimmed title-casing would keep the space. -/
theorem fmt_supported_platforms_counterexample :
    fmt_supported_platforms ["windows "] = "Windows" ∧
    fmt_platforms_claimed ["windows "] = "Windows " ∧
    fmt_supported_platforms ["windows "] ≠ fmt_platforms_claimed ["windows "] := by
  refine ⟨by decide, by decide, by decide⟩

/-- Claim C7, amended: the formatter maps the empty list to the empty
string; otherwise each tag is first stripped of surrounding whitespace,
then title-cased (first character capitalized, rest kept as-is) except
that a stripped tag equal to `macos` case-insensitively renders as
`macOS`; results are joined with a comma and space in input order; in
particular windows, macos, linux render as Windows, macOS, Linux. -/
theorem fmt_supported_platforms_trimmed_titlecase :
    fmt_supported_platforms [] = "" ∧
    (∀ ps : List String,
      fmt_supported_platforms ps =
        String.intercalate ", " (ps.map (fun p =>
          if pyLowerStr (pyStrip p) = "macos" then "macOS"
          else String.mk (capFirst (pyStrip p).data)))) ∧
    fmt_supported_platforms ["windows", "macos", "linux"] = "Windows, macOS, Linux" := by
  refine ⟨rfl, ?_, by decide⟩
  intro ps
  unfold fmt_supported_platforms
  by_cases h : ps = []
  · subst h
    rfl
  · rw [if_neg h]
    rfl

end AtomicMd
namespace AtomicMd

/-- `code_fence_lang` from the source: case-insensitive lookup of the
executor name (the call sites always pass a string, so `or ""` is the
identity here). -/
def code_fence_lang (executor_name : String) : String :=
  let name := pyLowerStr (pyStrip executor_name)
  if name = "command_prompt" ∨ name = "cmd" then "cmd"
  else if name = "powershell" ∨ name = "pwsh" then "powershell"
  else if name = "bash" then "bash"
  else if name = "sh" then "sh"
  else "text"

/-- One `input_arguments` value: `description`, `type`, `default`
(`default` stringified at render time, modelled as its rendered string). -/
structure ParamSpec where
  description : Option String
  type : Option String
  default : Option String
deriving DecidableEq

/-- The `executor` mapping of a test record. -/
structure Executor where
  name : Option String
  command : Option String
  cleanup_command : Option String
  elevation_required : Option Bool
deriving DecidableEq

/-- One record of `atomic_tests`.  `none` models an absent key (or, for
`executor`, a non-mapping value, which the code treats the same way).
`input_arguments` is an insertion-ordered association list, matching the
insertion-ordered Python dict. -/
structure AtomicTest where
  name : Option String
  description : Option String
  supported_platforms : Option (List String)
  auto_generated_guid : Option String
  input_arguments : Option (List (String × Option ParamSpec))
  executor : Option Executor
deriving DecidableEq

/-- The top-level YAML mapping. -/
structure AtomicDoc where
  attack_technique : Option String
  display_name : Option String
  name : Option String
  atomic_tests : Option (List AtomicTest)
deriving DecidableEq

/-- `t.get("name", f"Atomic Test #{idx}")` passed through
`md_escape_inline`. -/
def nameOf (idx : Nat) (t : AtomicTest) : String :=
  md_escape_inline (some (t.name.getD ("Atomic Test #" ++ toString idx)))

/-- The heading text `f"Atomic Test #{idx} - {name}"`. -/
def headingOf (idx : Nat) (t : AtomicTest) : String :=
  "Atomic Test #" ++ (toString idx ++ (" - " ++ nameOf idx t))

/-- One table-of-contents entry
`f"- [Atomic Test #{idx} - {name}](#{anchor})"`. -/
def tocLine (idx : Nat) (t : AtomicTest) : String :=
  "- [" ++ (headingOf idx t ++ ("](#" ++ (slugify_github_anchor (headingOf idx t) ++ ")")))

/-- The single line appended for the ATT&CK description: the stripped
text when a non-empty description is supplied, the empty line otherwise. -/
def adLine (ad : Option String) : String :=
  match ad with
  | some d => if d = "" then "" else pyStrip d
  | none => ""

/-- The `tests` list: `doc.get("atomic_tests") or []`. -/
def getTests (doc : AtomicDoc) : List AtomicTest := doc.atomic_tests.getD []

/-- The header template instantiated with the computed title pieces and
description line. -/
def headerCore (tech display adL : String) : List String :=
  ["# " ++ (tech ++ (" - " ++ display)),
   "## [Description from ATT&CK](https://attack.mitre.org/techniques/" ++ (tech ++ ")"),
   "<blockquote>",
   "",
   adL,
   "",
   "</blockquote>",
   "",
   "## Atomic Tests",
   ""]

/-- Lines 114-134 of the source: title, ATT&CK description blockquote,
and the "Atomic Tests" heading. -/
def headerLines (doc : AtomicDoc) (ad : Option String) : List String :=
  headerCore (md_escape_inline (some (doc.attack_technique.getD "")))
    (md_escape_inline (some (doc.display_name.getD (doc.name.getD "")))) (adLine ad)

/-- `for idx, t in enumerate(tests, start=1)` appending `f idx t` each
iteration. -/
def mapIdxFrom (f : Nat → AtomicTest → List String) : Nat → List AtomicTest → List String
  | _, [] => []
  | i, t :: ts => f i t ++ mapIdxFrom f (i + 1) ts

/-- The cells of one input-parameter table row, after the leading pipe. -/
def inputRowBody (kv : String × Option ParamSpec) : String :=
  let v := kv.2.getD ⟨none, none, none⟩
  md_escape_inline (some kv.1) ++ (" | " ++ (md_escape_inline v.description ++
    (" | " ++ (md_escape_inline v.type ++ (" | " ++ (md_escape_table v.default ++ "|"))))))

/-- One row of the input-parameter table (`v = v or {}` modelled by
defaulting an absent value to the all-empty spec). -/
def inputRow (kv : String × Option ParamSpec) : String :=
  "| " ++ inputRowBody kv

/-- Lines 171-183 of the source: the parameter table, emitted only when
`input_arguments` is a non-empty mapping. -/
def inputsBlock (t : AtomicTest) : List String :=
  let args := t.input_arguments.getD []
  if args = [] then []
  else
    ["#### Inputs:",
     "| Name | Description | Type | Default Value |",
     "|------|-------------|------|---------------|"]
    ++ args.map inputRow ++ ["", ""]

/-- `ex_name`: the inline-escaped executor name, empty when the
executor is absent or not a mapping. -/
def exNameOf (t : AtomicTest) : String :=
  match t.executor with
  | some e => md_escape_inline (some (e.name.getD ""))
  | none => ""

/-- `ex.get("elevation_required", None)`, `None` when the executor is
absent or not a mapping. -/
def elevOf (t : AtomicTest) : Option Bool :=
  match t.executor with
  | some e => e.elevation_required
  | none => none

/-- `ex.get("command")`, `None` when the executor is absent or not a
mapping. -/
def cmdOf (t : AtomicTest) : Option String :=
  match t.executor with
  | some e => e.command
  | none => none

/-- `ex.get("cleanup_command")`, `None` when the executor is absent or
not a mapping. -/
def cleanupOf (t : AtomicTest) : Option String :=
  match t.executor with
  | some e => e.cleanup_command
  | none => none

/-- Lines 186-216 of the source: attack-commands heading, command
fence, and cleanup fence. -/
def executorBlock (t : AtomicTest) : List String :=
  let ex_name := exNameOf t
  let elevTxt := if elevOf t = some true then "  Elevation Required (e.g. root or admin) " else ""
  (if ex_name = "" then ["#### Attack Commands:", ""]
   else ["#### Attack Commands: Run with `" ++ (ex_name ++ ("`!" ++ elevTxt)), ""])
  ++ (match cmdOf t with
      | some c =>
        if c = "" then []
        else ["```" ++ code_fence_lang ex_name, md_escape_inline (some c), "```", ""]
      | none => [])
  ++ (match cleanupOf t with
      | some c =>
        if c = "" then []
        else ["#### Cleanup Commands:",
              "```" ++ code_fence_lang ex_name,
              md_escape_inline (some c), "```", "", ""]
      | none => [])

/-- Lines 149-221 of the source: one rendered section per test record. -/
def sectionLines (idx : Nat) (t : AtomicTest) : List String :=
  let desc := t.description.getD ""
  let platforms := t.supported_platforms.getD []
  let guid := md_escape_inline (some (t.auto_generated_guid.getD ""))
  ["## " ++ headingOf idx t]
  ++ (if desc = "" then [] else [md_escape_inline (some desc), ""])
  ++ (if platforms = [] then []
      else ["**Supported Platforms:** " ++ fmt_supported_platforms platforms, ""])
  ++ (if guid = "" then [] else ["**auto_generated_guid:** " ++ guid, ""])
  ++ ["", "", "", ""]
  ++ inputsBlock t
  ++ executorBlock t
  ++ ["", "<br/>", "<br/>", ""]

/-- The full `lines` list built by `build_markdown`. -/
def buildLines (doc : AtomicDoc) (ad : Option String) : List String :=
  headerLines doc ad
  ++ mapIdxFrom (fun i t => [tocLine i t, ""]) 1 (getTests doc)
  ++ ["", "<br/>", ""]
  ++ mapIdxFrom sectionLines 1 (getTests doc)
  ++ ["<br/>"]

/-- Python `str.rstrip()`: drop trailing whitespace. -/
def rstrip (s : String) : String :=
  String.mk ((s.data.reverse.dropWhile Char.isWhitespace).reverse)

/-- `build_markdown` from the source:
`"\n".join(lines).rstrip() + "\n"`. -/
def build_markdown (doc : AtomicDoc) (ad : Option String) : String :=
  rstrip (String.intercalate "\n" (buildLines doc ad)) ++ "\n"

/-- The head of a `dropWhile` result never satisfies the predicate. -/
theorem head_dropWhile_false (p : Char → Bool) (l : List Char) (c : Char)
    (h : (l.dropWhile p).head? = some c) : p c = false := by
  induction l with
  | nil => simp [List.dropWhile] at h
  | cons a rest ih =>
    rw [List.dropWhile_cons] at h
    by_cases ha : p a
    · rw [if_pos ha] at h
      exact ih h
    · rw [if_neg ha] at h
      simp at h
      rw [← h]
      simpa using ha

/-- The last character of an `rstrip` result is never whitespace. -/
theorem rstrip_no_trailing_ws (s : String) (c : Char)
    (h : (rstrip s).data.getLast? = some c) : c.isWhitespace = false := by
  unfold rstrip at h
  rw [show (String.mk ((s.data.reverse.dropWhile Char.isWhitespace).reverse)).data
        = (s.data.reverse.dropWhile Char.isWhitespace).reverse from rfl] at h
  rw [List.getLast?_reverse] at h
  exact head_dropWhile_false _ _ _ h

/-- Claim C6: for every document and optional description, the rendered
output is a string with no trailing whitespace followed by exactly one
newline (so there are no trailing blank lines). -/
theorem build_markdown_trailing_newline (doc : AtomicDoc) (ad : Option String) :
    ∃ r : String, build_markdown doc ad = r ++ "\n" ∧
      ∀ c, r.data.getLast? = some c → c.isWhitespace = false :=
  ⟨rstrip (String.intercalate "\n" (buildLines doc ad)), rfl,
    fun c hc => rstrip_no_trailing_ws _ c hc⟩

/-- Model of `main` from the YAML-parse result onward: `none` models a
parse result that is not a mapping.  The `Except` value models the
run's effect: `ok md` means the markdown `md` is written to the output
path, `error` models `SystemExit` before any write. -/
def mainModel (parsed : Option AtomicDoc) (attack_desc : Option String) :
    Except String String :=
  match parsed with
  | none => Except.error "YAML did not parse into an object."
  | some doc => Except.ok (build_markdown doc attack_desc)

/-- Claim C8: when the input does not parse into a mapping the run
aborts with the fatal message and produces no output content to write. -/
theorem main_aborts_on_non_mapping (ad : Option String) :
    mainModel none ad = Except.error "YAML did not parse into an object." ∧
    ∀ s : String, mainModel none ad ≠ Except.ok s :=
  ⟨rfl, fun _ h => by cases h⟩

end AtomicMd
namespace AtomicMd

/-- `Nat.digitChar` never yields whitespace. -/
theorem digitChar_not_ws (n : Nat) : (Nat.digitChar n).isWhitespace = false := by
  by_cases h : n < 16
  · have key : ∀ m, m < 16 → (Nat.digitChar m).isWhitespace = false := by decide
    exact key n h
  · have hstar : Nat.digitChar n = '*' := by
      unfold Nat.digitChar
      repeat rw [if_neg (by omega)]
    rw [hstar]
    decide

/-- `Nat.toDigitsCore` preserves whitespace-freeness of the accumulator. -/
theorem toDigitsCore_not_ws (b : Nat) (f : Nat) :
    ∀ (n : Nat) (acc : List Char), (∀ c ∈ acc, c.isWhitespace = false) →
      ∀ c ∈ Nat.toDigitsCore b f n acc, c.isWhitespace = false := by
  induction f with
  | zero => exact fun n acc hacc => hacc
  | succ f ih =>
    intro n acc hacc c hc
    rw [show Nat.toDigitsCore b (f + 1) n acc =
          if n / b = 0 then Nat.digitChar (n % b) :: acc
          else Nat.toDigitsCore b f (n / b) (Nat.digitChar (n % b) :: acc) from rfl] at hc
    have hext : ∀ x ∈ Nat.digitChar (n % b) :: acc, x.isWhitespace = false := by
      intro x hx
      rcases List.mem_cons.mp hx with h1 | h1
      · rw [h1]
        exact digitChar_not_ws (n % b)
      · exact hacc x h1
    by_cases hq : n / b = 0
    · rw [if_pos hq] at hc
      exact hext c hc
    · rw [if_neg hq] at hc
      exact ih (n / b) _ hext c hc

/-- `Nat.toDigitsCore` on a non-empty accumulator stays non-empty. -/
theorem toDigitsCore_ne_nil (b : Nat) (f : Nat) :
    ∀ (n : Nat) (acc : List Char), acc ≠ [] → Nat.toDigitsCore b f n acc ≠ [] := by
  induction f with
  | zero => exact fun n acc h => h
  | succ f ih =>
    intro n acc h
    rw [show Nat.toDigitsCore b (f + 1) n acc =
          if n / b = 0 then Nat.digitChar (n % b) :: acc
          else Nat.toDigitsCore b f (n / b) (Nat.digitChar (n % b) :: acc) from rfl]
    by_cases hq : n / b = 0
    · rw [if_pos hq]
      exact List.cons_ne_nil _ _
    · rw [if_neg hq]
      exact ih (n / b) _ (List.cons_ne_nil _ _)

/-- Decimal representations of naturals contain no whitespace. -/
theorem natRepr_not_ws (n : Nat) : ∀ c ∈ (Nat.repr n).data, c.isWhitespace = false := by
  intro c hc
  rw [show (Nat.repr n).data = Nat.toDigitsCore 10 (n + 1) n [] from rfl] at hc
  exact toDigitsCore_not_ws 10 (n + 1) n [] (by intro x hx; simp at hx) c hc

/-- Decimal representations of naturals are non-empty. -/
theorem natRepr_ne_nil (n : Nat) : (Nat.repr n).data ≠ [] := by
  rw [show (Nat.repr n).data = Nat.toDigitsCore 10 (n + 1) n [] from rfl]
  rw [show Nat.toDigitsCore 10 (n + 1) n [] =
        if n / 10 = 0 then [Nat.digitChar (n % 10)]
        else Nat.toDigitsCore 10 n (n / 10) [Nat.digitChar (n % 10)] from rfl]
  by_cases hq : n / 10 = 0
  · rw [if_pos hq]
    exact List.cons_ne_nil _ _
  · rw [if_neg hq]
    exact toDigitsCore_ne_nil 10 n (n / 10) _ (List.cons_ne_nil _ _)

/-- `stripChars` is the identity when the two end characters are not
whitespace. -/
theorem stripChars_eq_self_of_ends (l : List Char)
    (h1 : ∀ c, l.head? = some c → c.isWhitespace = false)
    (h2 : ∀ c, l.getLast? = some c → c.isWhitespace = false) :
    stripChars l = l := by
  unfold stripChars
  have d1 : l.dropWhile Char.isWhitespace = l := by
    cases l with
    | nil => rfl
    | cons a rest => rw [List.dropWhile_cons, if_neg (by simp [h1 a rfl])]
  rw [d1]
  have d2 : l.reverse.dropWhile Char.isWhitespace = l.reverse := by
    cases hr : l.reverse with
    | nil => rfl
    | cons a rest =>
      have ha : l.getLast? = some a := by
        rw [← List.head?_reverse, hr]
        rfl
      rw [List.dropWhile_cons, if_neg (by simp [h2 a ha])]
  rw [d2, List.reverse_reverse]

/-- Stripping the default heading `"Atomic Test #<i>"` changes nothing:
it starts with a letter and ends with a decimal digit. -/
theorem pyStrip_default_name (idx : Nat) :
    pyStrip ("Atomic Test #" ++ toString idx) = "Atomic Test #" ++ toString idx := by
  have h1 : ∀ c, ("Atomic Test #" ++ toString idx).data.head? = some c →
      c.isWhitespace = false := by
    intro c hc
    rw [show ("Atomic Test #" ++ toString idx).data
          = 'A' :: ("tomic Test #".data ++ (Nat.repr idx).data) from rfl] at hc
    simp at hc
    subst hc
    decide
  have h2 : ∀ c, ("Atomic Test #" ++ toString idx).data.getLast? = some c →
      c.isWhitespace = false := by
    intro c hc
    rw [show ("Atomic Test #" ++ toString idx).data
          = "Atomic Test #".data ++ (Nat.repr idx).data from rfl,
      List.getLast?_append] at hc
    cases hR : (Nat.repr idx).data.getLast? with
    | none =>
      exact absurd (List.getLast?_eq_none_iff.mp hR) (natRepr_ne_nil idx)
    | some x =>
      rw [hR] at hc
      rw [show (Option.or (some x) ("Atomic Test #".data.getLast?)) = some x from rfl] at hc
      have hx : x ∈ (Nat.repr idx).data := List.mem_of_getLast?_eq_some hR
      have hxw := natRepr_not_ws idx x hx
      have hxc : x = c := Option.some_inj.mp hc
      rw [← hxc]
      exact hxw
  show String.mk (stripChars ("Atomic Test #" ++ toString idx).data)
      = "Atomic Test #" ++ toString idx
  rw [stripChars_eq_self_of_ends _ h1 h2]

/-- Claim C10: when a record's `name` is absent, the default name is
`"Atomic Test #<i>"`, so the table-of-contents entry text and the
section heading both render as `"Atomic Test #<i> - Atomic Test #<i>"`
and still agree with each other (the entry's link target is the slug of
that same duplicated heading). -/
theorem default_name_duplicates_heading (idx : Nat) (t : AtomicTest)
    (h : t.name = none) :
    nameOf idx t = "Atomic Test #" ++ toString idx ∧
    headingOf idx t
      = "Atomic Test #" ++ (toString idx ++ (" - " ++ ("Atomic Test #" ++ toString idx))) ∧
    tocLine idx t
      = "- [" ++ (("Atomic Test #" ++ (toString idx ++ (" - " ++ ("Atomic Test #" ++ toString idx))))
          ++ ("](#" ++ (slugify_github_anchor
                ("Atomic Test #" ++ (toString idx ++ (" - " ++ ("Atomic Test #" ++ toString idx))))
              ++ ")"))) ∧
    (sectionLines idx t).head?
      = some ("## " ++ ("Atomic Test #" ++ (toString idx ++ (" - " ++ ("Atomic Test #" ++ toString idx))))) := by
  have hname : nameOf idx t = "Atomic Test #" ++ toString idx := by
    unfold nameOf
    rw [h]
    show pyStrip ("Atomic Test #" ++ toString idx) = _
    exact pyStrip_default_name idx
  have hhead : headingOf idx t
      = "Atomic Test #" ++ (toString idx ++ (" - " ++ ("Atomic Test #" ++ toString idx))) := by
    unfold headingOf
    rw [hname]
  refine ⟨hname, hhead, ?_, ?_⟩
  · unfold tocLine
    rw [hhead]
  · show (["## " ++ headingOf idx t] ++ _).head? = _
    rw [List.head?_append]
    rw [show (["## " ++ headingOf idx t] : List String).head?
          = some ("## " ++ headingOf idx t) from rfl]
    rw [hhead]
    rfl

/-- Witness for the default-name claim at index 1 on the all-absent
record. -/
theorem default_name_duplicates_heading_witness :
    nameOf 1 ⟨none, none, none, none, none, none⟩ = "Atomic Test #" ++ toString 1 ∧
    headingOf 1 ⟨none, none, none, none, none, none⟩
      = "Atomic Test #" ++ (toString 1 ++ (" - " ++ ("Atomic Test #" ++ toString 1))) ∧
    tocLine 1 ⟨none, none, none, none, none, none⟩
      = "- [" ++ (("Atomic Test #" ++ (toString 1 ++ (" - " ++ ("Atomic Test #" ++ toString 1))))
          ++ ("](#" ++ (slugify_github_anchor
                ("Atomic Test #" ++ (toString 1 ++ (" - " ++ ("Atomic Test #" ++ toString 1))))
              ++ ")"))) ∧
    (sectionLines 1 ⟨none, none, none, none, none, none⟩).head?
      = some ("## " ++ ("Atomic Test #" ++ (toString 1 ++ (" - " ++ ("Atomic Test #" ++ toString 1))))) :=
  default_name_duplicates_heading 1 ⟨none, none, none, none, none, none⟩ rfl

end AtomicMd
namespace AtomicMd

/-- The fixed prefix of every table-of-contents entry line. -/
def tocPat : List Char := "- [Atomic Test #".data

/-- The fixed prefix of every per-record section heading line. -/
def headPat : List Char := "## Atomic Test #".data

/-- Recognizer for table-of-contents entry lines. -/
def isTocLine (l : String) : Bool := tocPat.isPrefixOf l.data

/-- Recognizer for per-record section heading lines. -/
def isHeadingLine (l : String) : Bool := headPat.isPrefixOf l.data

/-- A pattern that disagrees with the first characters of a line cannot
be its prefix, whatever follows. -/
theorem isPrefixOf_append_ne (p a b : List Char) (hlen : a.length ≤ p.length)
    (hne : p.take a.length ≠ a) : p.isPrefixOf (a ++ b) = false := by
  cases hb : p.isPrefixOf (a ++ b) with
  | false => rfl
  | true =>
    exfalso
    apply hne
    have hp : p = (a ++ b).take p.length :=
      List.prefix_iff_eq_take.mp (List.isPrefixOf_iff_prefix.mp hb)
    calc p.take a.length
        = ((a ++ b).take p.length).take a.length := by rw [← hp]
      _ = (a ++ b).take (min a.length p.length) := List.take_take a.length p.length (a ++ b)
      _ = (a ++ b).take a.length := by rw [Nat.min_eq_left hlen]
      _ = a.take a.length ++ b.take (a.length - a.length) := List.take_append_eq_append_take
      _ = a := by rw [List.take_length, Nat.sub_self, List.take_zero, List.append_nil]

/-- Whether a pattern is a prefix of a line is decided by a fixed head
at least as long as the pattern. -/
theorem isPrefixOf_append_long (p a b : List Char) (hlen : p.length ≤ a.length) :
    p.isPrefixOf (a ++ b) = p.isPrefixOf a := by
  cases hb : p.isPrefixOf a with
  | true =>
    cases hc : p.isPrefixOf (a ++ b) with
    | true => rfl
    | false =>
      exfalso
      have h2 : p <+: a ++ b :=
        (List.isPrefixOf_iff_prefix.mp hb).trans (List.prefix_append a b)
      have := List.isPrefixOf_iff_prefix.mpr h2
      rw [hc] at this
      exact Bool.false_ne_true this
  | false =>
    cases hc : p.isPrefixOf (a ++ b) with
    | false => rfl
    | true =>
      exfalso
      have hp : p = (a ++ b).take p.length :=
        List.prefix_iff_eq_take.mp (List.isPrefixOf_iff_prefix.mp hc)
      rw [List.take_append_eq_append_take, Nat.sub_eq_zero_of_le hlen, List.take_zero,
        List.append_nil] at hp
      have h2 : p <+: a := List.prefix_iff_eq_take.mpr hp
      have := List.isPrefixOf_iff_prefix.mpr h2
      rw [hb] at this
      exact Bool.false_ne_true this

/-- A pattern is a prefix of any extension of itself. -/
theorem isPrefixOf_append_self (p w : List Char) : p.isPrefixOf (p ++ w) = true :=
  List.isPrefixOf_iff_prefix.mpr (List.prefix_append p w)

/-- A pattern split as two string heads is a prefix of any line
starting with those heads. -/
theorem isPrefixOf_append_split (p₁ p₂ w : List Char) :
    (p₁ ++ p₂).isPrefixOf (p₁ ++ (p₂ ++ w)) = true := by
  rw [← List.append_assoc]
  exact isPrefixOf_append_self (p₁ ++ p₂) w

/-- Pattern value on a line with a short fixed head that disagrees. -/
theorem pat_head_short (p : List Char) (hd x : String) (hlen : hd.data.length ≤ p.length)
    (hne : p.take hd.data.length ≠ hd.data) : p.isPrefixOf (hd ++ x).data = false := by
  rw [String.data_append]
  exact isPrefixOf_append_ne p hd.data x.data hlen hne

/-- Pattern value on a line with a fixed head at least as long as the
pattern. -/
theorem pat_head_long (p : List Char) (hd x : String) (hlen : p.length ≤ hd.data.length) :
    p.isPrefixOf (hd ++ x).data = p.isPrefixOf hd.data := by
  rw [String.data_append]
  exact isPrefixOf_append_long p hd.data x.data hlen

/-- Every table-of-contents entry line matches `isTocLine`. -/
theorem isTocLine_tocLine (idx : Nat) (t : AtomicTest) :
    isTocLine (tocLine idx t) = true := by
  unfold isTocLine tocLine headingOf
  rw [String.data_append, String.data_append, String.data_append]
  rw [show tocPat = "- [".data ++ "Atomic Test #".data from rfl]
  exact isPrefixOf_append_split "- [".data "Atomic Test #".data _

/-- No table-of-contents entry line matches `isHeadingLine`. -/
theorem isHeadingLine_tocLine (idx : Nat) (t : AtomicTest) :
    isHeadingLine (tocLine idx t) = false := by
  unfold isHeadingLine tocLine
  exact pat_head_short headPat "- [" _ (by decide) (by decide)

/-- Every section heading line matches `isHeadingLine`. -/
theorem isHeadingLine_heading (idx : Nat) (t : AtomicTest) :
    isHeadingLine ("## " ++ headingOf idx t) = true := by
  unfold isHeadingLine headingOf
  rw [String.data_append, String.data_append]
  rw [show headPat = "## ".data ++ "Atomic Test #".data from rfl]
  exact isPrefixOf_append_split "## ".data "Atomic Test #".data _

/-- No section heading line matches `isTocLine`. -/
theorem isTocLine_heading (idx : Nat) (t : AtomicTest) :
    isTocLine ("## " ++ headingOf idx t) = false := by
  unfold isTocLine
  exact pat_head_short tocPat "## " _ (by decide) (by decide)

/-- `enumerate(tests, start=i)`. -/
def enumFrom (i : Nat) : List AtomicTest → List (Nat × AtomicTest)
  | [] => []
  | t :: ts => (i, t) :: enumFrom (i + 1) ts

/-- `enumFrom` preserves length. -/
theorem enumFrom_length (l : List AtomicTest) : ∀ i, (enumFrom i l).length = l.length := by
  induction l with
  | nil => intro i; rfl
  | cons t ts ih =>
    intro i
    show (enumFrom (i + 1) ts).length + 1 = ts.length + 1
    rw [ih (i + 1)]

/-- Indexing into `enumFrom`. -/
theorem enumFrom_getElem? (l : List AtomicTest) :
    ∀ (i k : Nat), (enumFrom i l)[k]? = l[k]?.map (fun t => (i + k, t)) := by
  induction l with
  | nil => intro i k; simp [enumFrom]
  | cons t ts ih =>
    intro i k
    cases k with
    | zero =>
      show ((i, t) :: enumFrom (i + 1) ts)[0]? = ((t :: ts))[0]?.map (fun u => (i + 0, u))
      rw [List.getElem?_cons_zero, List.getElem?_cons_zero]
      rfl
    | succ k =>
      show ((i, t) :: enumFrom (i + 1) ts)[k + 1]?
          = ((t :: ts))[k + 1]?.map (fun u => (i + (k + 1), u))
      rw [List.getElem?_cons_succ, List.getElem?_cons_succ, ih (i + 1) k]
      cases hv : ts[k]? with
      | none => rfl
      | some u =>
        show some (i + 1 + k, u) = some (i + (k + 1), u)
        rw [Nat.add_assoc, Nat.add_comm 1 k]

end AtomicMd
namespace AtomicMd

/-- Filtering drops a head element on which the predicate is false. -/
theorem filter_cons_false {p : String → Bool} (a : String) (l : List String)
    (h : p a = false) : (a :: l).filter p = l.filter p := by
  rw [List.filter_cons, if_neg (by simp [h])]

/-- Filtering keeps a head element on which the predicate is true. -/
theorem filter_cons_true {p : String → Bool} (a : String) (l : List String)
    (h : p a = true) : (a :: l).filter p = a :: l.filter p := by
  rw [List.filter_cons, if_pos (by simp [h])]

/-- No header line is a table-of-contents entry (given the description
line is not). -/
theorem headerCore_filter_toc (tech display adL : String)
    (h : isTocLine adL = false) :
    (headerCore tech display adL).filter isTocLine = [] := by
  have e1 : isTocLine ("# " ++ (tech ++ (" - " ++ display))) = false :=
    pat_head_short tocPat "# " _ (by decide) (by decide)
  have e2 : isTocLine ("## [Description from ATT&CK](https://attack.mitre.org/techniques/"
      ++ (tech ++ ")")) = false := by
    show tocPat.isPrefixOf _ = false
    rw [pat_head_long tocPat _ _ (by decide)]
    decide
  unfold headerCore
  rw [filter_cons_false _ _ e1, filter_cons_false _ _ e2,
    filter_cons_false _ _ (by decide), filter_cons_false _ _ (by decide),
    filter_cons_false _ _ h, filter_cons_false _ _ (by decide),
    filter_cons_false _ _ (by decide), filter_cons_false _ _ (by decide),
    filter_cons_false _ _ (by decide), filter_cons_false _ _ (by decide),
    List.filter_nil]

/-- No header line is a section heading (given the description line is
not). -/
theorem headerCore_filter_head (tech display adL : String)
    (h : isHeadingLine adL = false) :
    (headerCore tech display adL).filter isHeadingLine = [] := by
  have e1 : isHeadingLine ("# " ++ (tech ++ (" - " ++ display))) = false :=
    pat_head_short headPat "# " _ (by decide) (by decide)
  have e2 : isHeadingLine ("## [Description from ATT&CK](https://attack.mitre.org/techniques/"
      ++ (tech ++ ")")) = false := by
    show headPat.isPrefixOf _ = false
    rw [pat_head_long headPat _ _ (by decide)]
    decide
  unfold headerCore
  rw [filter_cons_false _ _ e1, filter_cons_false _ _ e2,
    filter_cons_false _ _ (by decide), filter_cons_false _ _ (by decide),
    filter_cons_false _ _ h, filter_cons_false _ _ (by decide),
    filter_cons_false _ _ (by decide), filter_cons_false _ _ (by decide),
    filter_cons_false _ _ (by decide), filter_cons_false _ _ (by decide),
    List.filter_nil]

/-- Parameter-table rows are never table-of-contents entries or section
headings: they start with a pipe. -/
theorem rows_filter_none (p : List Char) (hlen : ("| ".data).length ≤ p.length)
    (hne : p.take ("| ".data).length ≠ "| ".data)
    (args : List (String × Option ParamSpec)) :
    (args.map inputRow).filter (fun l => p.isPrefixOf l.data) = [] := by
  rw [List.filter_eq_nil_iff]
  intro r hr
  obtain ⟨kv, _, hkv⟩ := List.mem_map.mp hr
  rw [← hkv]
  show ¬ (p.isPrefixOf ("| " ++ inputRowBody kv).data = true)
  rw [pat_head_short p "| " (inputRowBody kv) hlen hne]
  simp

end AtomicMd
namespace AtomicMd

/-- Parameter-table rows never match `isTocLine`. -/
theorem rows_filter_toc (args : List (String × Option ParamSpec)) :
    (args.map inputRow).filter isTocLine = [] :=
  rows_filter_none tocPat (by decide) (by decide) args

/-- Parameter-table rows never match `isHeadingLine`. -/
theorem rows_filter_head (args : List (String × Option ParamSpec)) :
    (args.map inputRow).filter isHeadingLine = [] :=
  rows_filter_none headPat (by decide) (by decide) args

/-- Filtering a two-element list on which the predicate is false. -/
theorem filter_pair_false {p : String → Bool} (x y : String) (hx : p x = false)
    (hy : p y = false) : ([x, y] : List String).filter p = [] := by
  rw [filter_cons_false _ _ hx, filter_cons_false _ _ hy, List.filter_nil]

/-- The parameter table never contributes table-of-contents entries. -/
theorem inputsBlock_filter_toc (t : AtomicTest) :
    (inputsBlock t).filter isTocLine = [] := by
  simp only [inputsBlock]
  by_cases h6 : t.input_arguments.getD [] = []
  · rw [if_pos h6]
    rfl
  · rw [if_neg h6, List.filter_append, List.filter_append,
      filter_cons_false _ _ (by decide), filter_cons_false _ _ (by decide),
      filter_cons_false _ _ (by decide), List.filter_nil,
      rows_filter_toc (t.input_arguments.getD []),
      filter_pair_false _ _ (by decide) (by decide)]
    rfl

/-- The parameter table never contributes section headings. -/
theorem inputsBlock_filter_head (t : AtomicTest) :
    (inputsBlock t).filter isHeadingLine = [] := by
  simp only [inputsBlock]
  by_cases h6 : t.input_arguments.getD [] = []
  · rw [if_pos h6]
    rfl
  · rw [if_neg h6, List.filter_append, List.filter_append,
      filter_cons_false _ _ (by decide), filter_cons_false _ _ (by decide),
      filter_cons_false _ _ (by decide), List.filter_nil,
      rows_filter_head (t.input_arguments.getD []),
      filter_pair_false _ _ (by decide) (by decide)]
    rfl

/-- The executor block never contributes table-of-contents entries
(given the command and cleanup texts do not). -/
theorem executorBlock_filter_toc (t : AtomicTest)
    (hc : isTocLine (md_escape_inline (cmdOf t)) = false)
    (hk : isTocLine (md_escape_inline (cleanupOf t)) = false) :
    (executorBlock t).filter isTocLine = [] := by
  have g1 : (List.filter isTocLine
      (if exNameOf t = "" then ["#### Attack Commands:", ""]
       else ["#### Attack Commands: Run with `" ++ (exNameOf t ++ ("`!"
         ++ (if elevOf t = some true then "  Elevation Required (e.g. root or admin) "
             else ""))), ""])) = [] := by
    by_cases h1 : exNameOf t = ""
    · rw [if_pos h1]
      exact filter_pair_false _ _ (by decide) (by decide)
    · rw [if_neg h1]
      refine filter_pair_false _ _ ?_ (by decide)
      show tocPat.isPrefixOf _ = false
      rw [pat_head_long tocPat "#### Attack Commands: Run with `" _ (by decide)]
      decide
  have g2 : (List.filter isTocLine
      (match cmdOf t with
       | some c =>
         if c = "" then []
         else ["```" ++ code_fence_lang (exNameOf t), md_escape_inline (some c), "```", ""]
       | none => [])) = [] := by
    cases hm : cmdOf t with
    | none => rfl
    | some c =>
      rw [hm] at hc
      show (List.filter isTocLine
        (if c = "" then []
         else ["```" ++ code_fence_lang (exNameOf t), md_escape_inline (some c), "```", ""])) = []
      by_cases hcc : c = ""
      · rw [if_pos hcc]
        rfl
      · rw [if_neg hcc,
          filter_cons_false _ _ (pat_head_short tocPat "```" _ (by decide) (by decide)),
          filter_cons_false _ _ hc,
          filter_pair_false _ _ (by decide) (by decide)]
  have g3 : (List.filter isTocLine
      (match cleanupOf t with
       | some c =>
         if c = "" then []
         else ["#### Cleanup Commands:", "```" ++ code_fence_lang (exNameOf t),
               md_escape_inline (some c), "```", "", ""]
       | none => [])) = [] := by
    cases hm : cleanupOf t with
    | none => rfl
    | some c =>
      rw [hm] at hk
      show (List.filter isTocLine
        (if c = "" then []
         else ["#### Cleanup Commands:", "```" ++ code_fence_lang (exNameOf t),
               md_escape_inline (some c), "```", "", ""])) = []
      by_cases hcc : c = ""
      · rw [if_pos hcc]
        rfl
      · rw [if_neg hcc,
          filter_cons_false _ _ (by decide),
          filter_cons_false _ _ (pat_head_short tocPat "```" _ (by decide) (by decide)),
          filter_cons_false _ _ hk,
          filter_cons_false _ _ (by decide),
          filter_pair_false _ _ (by decide) (by decide)]
  simp only [executorBlock]
  rw [List.filter_append, List.filter_append, g1, g2, g3]
  rfl

/-- The executor block never contributes section headings (given the
command and cleanup texts do not). -/
theorem executorBlock_filter_head (t : AtomicTest)
    (hc : isHeadingLine (md_escape_inline (cmdOf t)) = false)
    (hk : isHeadingLine (md_escape_inline (cleanupOf t)) = false) :
    (executorBlock t).filter isHeadingLine = [] := by
  have g1 : (List.filter isHeadingLine
      (if exNameOf t = "" then ["#### Attack Commands:", ""]
       else ["#### Attack Commands: Run with `" ++ (exNameOf t ++ ("`!"
         ++ (if elevOf t = some true then "  Elevation Required (e.g. root or admin) "
             else ""))), ""])) = [] := by
    by_cases h1 : exNameOf t = ""
    · rw [if_pos h1]
      exact filter_pair_false _ _ (by decide) (by decide)
    · rw [if_neg h1]
      refine filter_pair_false _ _ ?_ (by decide)
      show headPat.isPrefixOf _ = false
      rw [pat_head_long headPat "#### Attack Commands: Run with `" _ (by decide)]
      decide
  have g2 : (List.filter isHeadingLine
      (match cmdOf t with
       | some c =>
         if c = "" then []
         else ["```" ++ code_fence_lang (exNameOf t), md_escape_inline (some c), "```", ""]
       | none => [])) = [] := by
    cases hm : cmdOf t with
    | none => rfl
    | some c =>
      rw [hm] at hc
      show (List.filter isHeadingLine
        (if c = "" then []
         else ["```" ++ code_fence_lang (exNameOf t), md_escape_inline (some c), "```", ""])) = []
      by_cases hcc : c = ""
      · rw [if_pos hcc]
        rfl
      · rw [if_neg hcc,
          filter_cons_false _ _ (pat_head_short headPat "```" _ (by decide) (by decide)),
          filter_cons_false _ _ hc,
          filter_pair_false _ _ (by decide) (by decide)]
  have g3 : (List.filter isHeadingLine
      (match cleanupOf t with
       | some c =>
         if c = "" then []
         else ["#### Cleanup Commands:", "```" ++ code_fence_lang (exNameOf t),
               md_escape_inline (some c), "```", "", ""]
       | none => [])) = [] := by
    cases hm : cleanupOf t with
    | none => rfl
    | some c =>
      rw [hm] at hk
      show (List.filter isHeadingLine
        (if c = "" then []
         else ["#### Cleanup Commands:", "```" ++ code_fence_lang (exNameOf t),
               md_escape_inline (some c), "```", "", ""])) = []
      by_cases hcc : c = ""
      · rw [if_pos hcc]
        rfl
      · rw [if_neg hcc,
          filter_cons_false _ _ (by decide),
          filter_cons_false _ _ (pat_head_short headPat "```" _ (by decide) (by decide)),
          filter_cons_false _ _ hk,
          filter_cons_false _ _ (by decide),
          filter_pair_false _ _ (by decide) (by decide)]
  simp only [executorBlock]
  rw [List.filter_append, List.filter_append, g1, g2, g3]
  rfl

end AtomicMd
namespace AtomicMd

/-- A record's free-text fields (description, command, cleanup) do not
themselves look like table-of-contents entries or section headings. -/
def cleanTest (t : AtomicTest) : Prop :=
  isTocLine (md_escape_inline (some (t.description.getD ""))) = false ∧
  isHeadingLine (md_escape_inline (some (t.description.getD ""))) = false ∧
  isTocLine (md_escape_inline (cmdOf t)) = false ∧
  isHeadingLine (md_escape_inline (cmdOf t)) = false ∧
  isTocLine (md_escape_inline (cleanupOf t)) = false ∧
  isHeadingLine (md_escape_inline (cleanupOf t)) = false

instance cleanTest_decidable (t : AtomicTest) : Decidable (cleanTest t) := by
  unfold cleanTest
  infer_instance

/-- A rendered section contributes no table-of-contents entries. -/
theorem sectionLines_filter_toc (idx : Nat) (t : AtomicTest)
    (hd : isTocLine (md_escape_inline (some (t.description.getD ""))) = false)
    (hc : isTocLine (md_escape_inline (cmdOf t)) = false)
    (hk : isTocLine (md_escape_inline (cleanupOf t)) = false) :
    (sectionLines idx t).filter isTocLine = [] := by
  have f2 : (List.filter isTocLine (if t.description.getD "" = "" then []
      else [md_escape_inline (some (t.description.getD "")), ""])) = [] := by
    by_cases h2 : t.description.getD "" = ""
    · rw [if_pos h2]
      rfl
    · rw [if_neg h2]
      exact filter_pair_false _ _ hd (by decide)
  have f3 : (List.filter isTocLine (if t.supported_platforms.getD [] = [] then []
      else ["**Supported Platforms:** "
        ++ fmt_supported_platforms (t.supported_platforms.getD []), ""])) = [] := by
    by_cases h3 : t.supported_platforms.getD [] = []
    · rw [if_pos h3]
      rfl
    · rw [if_neg h3]
      refine filter_pair_false _ _ ?_ (by decide)
      show tocPat.isPrefixOf _ = false
      rw [pat_head_long tocPat "**Supported Platforms:** " _ (by decide)]
      decide
  have f4 : (List.filter isTocLine
      (if md_escape_inline (some (t.auto_generated_guid.getD "")) = "" then []
       else ["**auto_generated_guid:** "
         ++ md_escape_inline (some (t.auto_generated_guid.getD "")), ""])) = [] := by
    by_cases h4 : md_escape_inline (some (t.auto_generated_guid.getD "")) = ""
    · rw [if_pos h4]
      rfl
    · rw [if_neg h4]
      refine filter_pair_false _ _ ?_ (by decide)
      show tocPat.isPrefixOf _ = false
      rw [pat_head_long tocPat "**auto_generated_guid:** " _ (by decide)]
      decide
  simp only [sectionLines]
  simp only [List.filter_append]
  rw [filter_cons_false _ _ (isTocLine_heading idx t), List.filter_nil, f2, f3, f4,
    show (List.filter isTocLine ["", "", "", ""]) = [] from by decide,
    inputsBlock_filter_toc t, executorBlock_filter_toc t hc hk,
    show (List.filter isTocLine ["", "<br/>", "<br/>", ""]) = [] from by decide]
  rfl

/-- A rendered section contributes exactly its own heading line. -/
theorem sectionLines_filter_head (idx : Nat) (t : AtomicTest)
    (hd : isHeadingLine (md_escape_inline (some (t.description.getD ""))) = false)
    (hc : isHeadingLine (md_escape_inline (cmdOf t)) = false)
    (hk : isHeadingLine (md_escape_inline (cleanupOf t)) = false) :
    (sectionLines idx t).filter isHeadingLine = ["## " ++ headingOf idx t] := by
  have f2 : (List.filter isHeadingLine (if t.description.getD "" = "" then []
      else [md_escape_inline (some (t.description.getD "")), ""])) = [] := by
    by_cases h2 : t.description.getD "" = ""
    · rw [if_pos h2]
      rfl
    · rw [if_neg h2]
      exact filter_pair_false _ _ hd (by decide)
  have f3 : (List.filter isHeadingLine (if t.supported_platforms.getD [] = [] then []
      else ["**Supported Platforms:** "
        ++ fmt_supported_platforms (t.supported_platforms.getD []), ""])) = [] := by
    by_cases h3 : t.supported_platforms.getD [] = []
    · rw [if_pos h3]
      rfl
    · rw [if_neg h3]
      refine filter_pair_false _ _ ?_ (by decide)
      show headPat.isPrefixOf _ = false
      rw [pat_head_long headPat "**Supported Platforms:** " _ (by decide)]
      decide
  have f4 : (List.filter isHeadingLine
      (if md_escape_inline (some (t.auto_generated_guid.getD "")) = "" then []
       else ["**auto_generated_guid:** "
         ++ md_escape_inline (some (t.auto_generated_guid.getD "")), ""])) = [] := by
    by_cases h4 : md_escape_inline (some (t.auto_generated_guid.getD "")) = ""
    · rw [if_pos h4]
      rfl
    · rw [if_neg h4]
      refine filter_pair_false _ _ ?_ (by decide)
      show headPat.isPrefixOf _ = false
      rw [pat_head_long headPat "**auto_generated_guid:** " _ (by decide)]
      decide
  simp only [sectionLines]
  simp only [List.filter_append]
  rw [filter_cons_true _ _ (isHeadingLine_heading idx t), List.filter_nil, f2, f3, f4,
    show (List.filter isHeadingLine ["", "", "", ""]) = [] from by decide,
    inputsBlock_filter_head t, executorBlock_filter_head t hc hk,
    show (List.filter isHeadingLine ["", "<br/>", "<br/>", ""]) = [] from by decide]
  rfl

/-- The table-of-contents part filters to exactly its entry lines, in
order. -/
theorem tocPart_filter_toc (tests : List AtomicTest) : ∀ i : Nat,
    (mapIdxFrom (fun k t => [tocLine k t, ""]) i tests).filter isTocLine
      = (enumFrom i tests).map (fun p => tocLine p.1 p.2) := by
  induction tests with
  | nil => intro i; rfl
  | cons t ts ih =>
    intro i
    show (([tocLine i t, ""] : List String)
        ++ mapIdxFrom (fun k t => [tocLine k t, ""]) (i + 1) ts).filter isTocLine
      = tocLine i t :: (enumFrom (i + 1) ts).map (fun p => tocLine p.1 p.2)
    rw [List.filter_append, filter_cons_true _ _ (isTocLine_tocLine i t),
      filter_cons_false _ _ (by decide), List.filter_nil, ih (i + 1)]
    rfl

/-- The table-of-contents part contributes no section headings. -/
theorem tocPart_filter_head (tests : List AtomicTest) : ∀ i : Nat,
    (mapIdxFrom (fun k t => [tocLine k t, ""]) i tests).filter isHeadingLine = [] := by
  induction tests with
  | nil => intro i; rfl
  | cons t ts ih =>
    intro i
    show (([tocLine i t, ""] : List String)
        ++ mapIdxFrom (fun k t => [tocLine k t, ""]) (i + 1) ts).filter isHeadingLine = []
    rw [List.filter_append,
      filter_pair_false _ _ (isHeadingLine_tocLine i t) (by decide), ih (i + 1)]
    rfl

/-- The sections part contributes no table-of-contents entries. -/
theorem sectionsPart_filter_toc : ∀ (tests : List AtomicTest),
    (∀ t ∈ tests, cleanTest t) → ∀ i : Nat,
      (mapIdxFrom sectionLines i tests).filter isTocLine = [] := by
  intro tests
  induction tests with
  | nil => intro H i; rfl
  | cons t ts ih =>
    intro H i
    obtain ⟨h1, _, h3, _, h5, _⟩ := H t (List.mem_cons_self t ts)
    show (sectionLines i t ++ mapIdxFrom sectionLines (i + 1) ts).filter isTocLine = []
    rw [List.filter_append, sectionLines_filter_toc i t h1 h3 h5,
      ih (fun u hu => H u (List.mem_cons_of_mem t hu)) (i + 1)]
    rfl

/-- The sections part filters to exactly its heading lines, in order. -/
theorem sectionsPart_filter_head : ∀ (tests : List AtomicTest),
    (∀ t ∈ tests, cleanTest t) → ∀ i : Nat,
      (mapIdxFrom sectionLines i tests).filter isHeadingLine
        = (enumFrom i tests).map (fun p => "## " ++ headingOf p.1 p.2) := by
  intro tests
  induction tests with
  | nil => intro H i; rfl
  | cons t ts ih =>
    intro H i
    obtain ⟨_, h2, _, h4, _, h6⟩ := H t (List.mem_cons_self t ts)
    show (sectionLines i t ++ mapIdxFrom sectionLines (i + 1) ts).filter isHeadingLine
      = ("## " ++ headingOf i t) :: (enumFrom (i + 1) ts).map (fun p => "## " ++ headingOf p.1 p.2)
    rw [List.filter_append, sectionLines_filter_head i t h2 h4 h6,
      ih (fun u hu => H u (List.mem_cons_of_mem t hu)) (i + 1)]
    rfl

end AtomicMd
namespace AtomicMd

/-- Claim C2: for every document whose tests field has `n` records
(whose free-text fields do not themselves spoof entry or heading
lines), the rendered line list contains exactly the `n` table-of-contents
entries and exactly the `n` section headings of the input records,
enumerated in input sequence order, and for every record `t` at 0-based
input position `i` the `i`-th entry is the link `- [h](#slug h)` and the
`i`-th heading is `## h` for `h` the heading text of that very record. -/
theorem build_markdown_toc_matches_sections (doc : AtomicDoc) (ad : Option String)
    (had1 : isTocLine (adLine ad) = false) (had2 : isHeadingLine (adLine ad) = false)
    (H : ∀ t ∈ getTests doc, cleanTest t) :
    (buildLines doc ad).filter isTocLine
      = (enumFrom 1 (getTests doc)).map (fun p => tocLine p.1 p.2) ∧
    (buildLines doc ad).filter isHeadingLine
      = (enumFrom 1 (getTests doc)).map (fun p => "## " ++ headingOf p.1 p.2) ∧
    ((buildLines doc ad).filter isTocLine).length = (getTests doc).length ∧
    ((buildLines doc ad).filter isHeadingLine).length = (getTests doc).length ∧
    ∀ (i : Nat) (t : AtomicTest), (getTests doc)[i]? = some t →
      ((buildLines doc ad).filter isTocLine)[i]? =
        some ("- [" ++ (headingOf (1 + i) t ++ ("](#"
          ++ (slugify_github_anchor (headingOf (1 + i) t) ++ ")")))) ∧
      ((buildLines doc ad).filter isHeadingLine)[i]? = some ("## " ++ headingOf (1 + i) t) := by
  have htoc : (buildLines doc ad).filter isTocLine
      = (enumFrom 1 (getTests doc)).map (fun p => tocLine p.1 p.2) := by
    simp only [buildLines, headerLines, List.filter_append]
    rw [headerCore_filter_toc _ _ _ had1, tocPart_filter_toc (getTests doc) 1,
      sectionsPart_filter_toc (getTests doc) H 1,
      show (List.filter isTocLine ["", "<br/>", ""]) = [] from by decide,
      show (List.filter isTocLine ["<br/>"]) = [] from by decide]
    simp
  have hhead : (buildLines doc ad).filter isHeadingLine
      = (enumFrom 1 (getTests doc)).map (fun p => "## " ++ headingOf p.1 p.2) := by
    simp only [buildLines, headerLines, List.filter_append]
    rw [headerCore_filter_head _ _ _ had2, tocPart_filter_head (getTests doc) 1,
      sectionsPart_filter_head (getTests doc) H 1,
      show (List.filter isHeadingLine ["", "<br/>", ""]) = [] from by decide,
      show (List.filter isHeadingLine ["<br/>"]) = [] from by decide]
    simp
  refine ⟨htoc, hhead, ?_, ?_, ?_⟩
  · rw [htoc, List.length_map, enumFrom_length]
  · rw [hhead, List.length_map, enumFrom_length]
  · intro i t ht
    refine ⟨?_, ?_⟩
    · rw [htoc, List.getElem?_map, enumFrom_getElem? (getTests doc) 1 i, ht]
      rfl
    · rw [hhead, List.getElem?_map, enumFrom_getElem? (getTests doc) 1 i, ht]
      rfl

/-- A concrete parameter for the structural witness document. -/
def sampleParam : ParamSpec :=
  ⟨some "Path of net.exe", some "path", some "C:\\Windows\\System32\\net.exe"⟩

/-- A fully-populated witness record. -/
def sampleTest1 : AtomicTest :=
  ⟨some "Install net.exe", some "Copies net.exe for later use", some ["windows"],
   some "11111111-2222-3333-4444-555555555555",
   some [("net_path", some sampleParam)],
   some ⟨some "command_prompt", some "copy net.exe dest", some "del dest", some true⟩⟩

/-- An all-absent witness record. -/
def sampleTest2 : AtomicTest := ⟨none, none, none, none, none, none⟩

/-- A two-record witness document. -/
def sampleDoc : AtomicDoc :=
  ⟨some "T1059", some "Sample Technique", none, some [sampleTest1, sampleTest2]⟩

/-- Witness for the structural claim on the two-record sample document. -/
theorem build_markdown_toc_matches_sections_witness :
    (buildLines sampleDoc none).filter isTocLine
      = (enumFrom 1 (getTests sampleDoc)).map (fun p => tocLine p.1 p.2) ∧
    (buildLines sampleDoc none).filter isHeadingLine
      = (enumFrom 1 (getTests sampleDoc)).map (fun p => "## " ++ headingOf p.1 p.2) ∧
    ((buildLines sampleDoc none).filter isTocLine).length = (getTests sampleDoc).length ∧
    ((buildLines sampleDoc none).filter isHeadingLine).length = (getTests sampleDoc).length ∧
    ∀ (i : Nat) (t : AtomicTest), (getTests sampleDoc)[i]? = some t →
      ((buildLines sampleDoc none).filter isTocLine)[i]? =
        some ("- [" ++ (headingOf (1 + i) t ++ ("](#"
          ++ (slugify_github_anchor (headingOf (1 + i) t) ++ ")")))) ∧
      ((buildLines sampleDoc none).filter isHeadingLine)[i]? = some ("## " ++ headingOf (1 + i) t) :=
  build_markdown_toc_matches_sections sampleDoc none (by decide) (by decide) (by decide)

end AtomicMd
namespace AtomicMd

/-- A parsed YAML value as the Python code receives it: `None`,
booleans, strings, sequences, and insertion-ordered mappings.  This is
the loosely-typed domain `yaml.safe_load` can produce below the
top-level mapping check. -/
inductive PyVal where
  | vnone : PyVal
  | vbool : Bool → PyVal
  | vstr : String → PyVal
  | vlist : List PyVal → PyVal
  | vdict : List (String × PyVal) → PyVal

/-- Python `repr`, as far as the renderer can observe it (string
`repr` quoting is modelled without escape sequences; no rendered value
in this development reaches a container `repr`). -/
def pyRepr : PyVal → String
  | .vnone => "None"
  | .vbool true => "True"
  | .vbool false => "False"
  | .vstr s => "\x27" ++ (s ++ "\x27")
  | .vlist l => "[" ++ (String.intercalate ", " (l.attach.map (fun x => pyRepr x.1)) ++ "]")
  | .vdict d => "\x7b" ++ (String.intercalate ", "
      (d.attach.map (fun e => "\x27" ++ (e.1.1 ++ ("\x27: " ++ pyRepr e.1.2)))) ++ "\x7d")
decreasing_by
  · simp_wf
    have h := List.sizeOf_lt_of_mem x.2
    omega
  · simp_wf
    obtain ⟨⟨k, v⟩, hm⟩ := e
    have h := List.sizeOf_lt_of_mem hm
    simp at h ⊢
    omega

/-- Python `str`: the identity on strings, `repr` on the other values
the renderer can meet. -/
def pyStr : PyVal → String
  | .vstr s => s
  | v => pyRepr v

/-- Python truthiness of a parsed value. -/
def pyTruthy : PyVal → Bool
  | .vnone => false
  | .vbool b => b
  | .vstr s => !(s == "")
  | .vlist l => !l.isEmpty
  | .vdict d => !d.isEmpty

/-- First-match lookup in an insertion-ordered mapping. -/
def lookup : List (String × PyVal) → String → Option PyVal
  | [], _ => none
  | (k, v) :: rest, key => if k = key then some v else lookup rest key

/-- Python `x.get(key, default)`: total on mappings, raises
`AttributeError` on every other value. -/
def pyDictGet (x : PyVal) (key : String) (d : PyVal) : Except String PyVal :=
  match x with
  | .vdict entries => Except.ok ((lookup entries key).getD d)
  | _ => Except.error "AttributeError: get"

/-- Python iteration (`for _ in x`): sequences yield their elements,
strings their characters, mappings their keys; other values raise
`TypeError`. -/
def pyIter : PyVal → Except String (List PyVal)
  | .vlist l => Except.ok l
  | .vstr s => Except.ok (s.data.map (fun c => PyVal.vstr (String.mk [c])))
  | .vdict d => Except.ok (d.map (fun kv => PyVal.vstr kv.1))
  | _ => Except.error "TypeError: not iterable"

/-- `md_escape_inline` on a parsed value: `None` to the empty string,
otherwise `str(s).strip()`. -/
def md_escape_inlineV (v : PyVal) : String :=
  match v with
  | .vnone => ""
  | v => pyStrip (pyStr v)

/-- `md_escape_table` on a parsed value. -/
def md_escape_tableV (v : PyVal) : String :=
  match v with
  | .vnone => ""
  | v => replaceBackslash (htmlEscape (pyStrip (pyStr v)))

/-- Python `p.strip()` applied during platform title-casing: raises
`AttributeError` unless `p` is a string. -/
def pyStrOf : PyVal → Except String String
  | .vstr s => Except.ok s
  | _ => Except.error "AttributeError: strip"

/-- Extract the strings of an iterated platform list, failing on the
first non-string element. -/
def mapStrs : List PyVal → Except String (List String)
  | [] => Except.ok []
  | v :: rest =>
    Except.bind (pyStrOf v) fun s =>
    Except.bind (mapStrs rest) fun ss =>
    Except.ok (s :: ss)

/-- `fmt_supported_platforms` on a parsed value: early return on a
falsy value, otherwise iterate, strip-and-title-case each element, and
join. -/
def fmt_platformsV (v : PyVal) : Except String String :=
  if pyTruthy v = false then Except.ok ""
  else
    Except.bind (pyIter v) fun items =>
    Except.bind (mapStrs items) fun strs =>
    Except.ok (String.intercalate ", " (strs.map titlecase))

end AtomicMd
namespace AtomicMd

/-- Python `x or y`: `x` when truthy, else `y`. -/
def pyOr (v d : PyVal) : PyVal := if pyTruthy v then v else d

/-- One parameter-table iteration on parsed values: `v = v or {}`,
then three `v.get(...)` accesses, each raising on a truthy non-mapping
value. -/
def inputRowV (kv : String × PyVal) : Except String String :=
  let v := pyOr kv.2 (PyVal.vdict [])
  Except.bind (pyDictGet v "description" .vnone) fun dV =>
  Except.bind (pyDictGet v "type" .vnone) fun tyV =>
  Except.bind (pyDictGet v "default" .vnone) fun dfV =>
  Except.ok ("| " ++ (md_escape_inlineV (.vstr kv.1) ++ (" | " ++ (md_escape_inlineV dV ++
    (" | " ++ (md_escape_inlineV tyV ++ (" | " ++ (md_escape_tableV dfV ++ "|"))))))))

/-- Monadic map over the `input_arguments.items()` iteration. -/
def mapEV (f : String × PyVal → Except String String) :
    List (String × PyVal) → Except String (List String)
  | [] => Except.ok []
  | kv :: rest =>
    Except.bind (f kv) fun x =>
    Except.bind (mapEV f rest) fun xs =>
    Except.ok (x :: xs)

/-- One table-of-contents iteration on parsed values: the
`t.get("name", ...)` access raises when the record is not a mapping. -/
def tocPairV (idx : Nat) (t : PyVal) : Except String (List String) :=
  Except.bind (pyDictGet t "name" (.vstr ("Atomic Test #" ++ toString idx))) fun nameV =>
  Except.ok
    (let name := md_escape_inlineV nameV
     let heading := "Atomic Test #" ++ (toString idx ++ (" - " ++ name))
     ["- [" ++ (heading ++ ("](#" ++ (slugify_github_anchor heading ++ ")"))), ""])

/-- `ex_name` on parsed values: the inline-escaped `name` of a mapping
executor, otherwise the empty string (the access is guarded by
`isinstance(ex, dict)` in the source and cannot raise). -/
def exNameOfV (exV : PyVal) : String :=
  match exV with
  | .vdict entries => md_escape_inlineV ((lookup entries "name").getD (.vstr ""))
  | _ => ""

/-- `ex.get("elevation_required", None)` on parsed values, guarded. -/
def elevOfV (exV : PyVal) : PyVal :=
  match exV with
  | .vdict entries => (lookup entries "elevation_required").getD .vnone
  | _ => .vnone

/-- `ex.get("command")` on parsed values, guarded. -/
def cmdOfV (exV : PyVal) : PyVal :=
  match exV with
  | .vdict entries => (lookup entries "command").getD .vnone
  | _ => .vnone

/-- `ex.get("cleanup_command")` on parsed values, guarded. -/
def cleanupOfV (exV : PyVal) : PyVal :=
  match exV with
  | .vdict entries => (lookup entries "cleanup_command").getD .vnone
  | _ => .vnone

/-- One rendered section on parsed values, with every `t.get`, `v.get`
and platform `strip` performed on the loosely-typed data, in the
source's evaluation order (the `ex.get` accesses are guarded by
`isinstance(ex, dict)` and so never raise). -/
def sectionLinesV (idx : Nat) (t : PyVal) : Except String (List String) :=
  Except.bind (pyDictGet t "name" (.vstr ("Atomic Test #" ++ toString idx))) fun nameV =>
  Except.bind (pyDictGet t "description" .vnone) fun descV0 =>
  Except.bind (pyDictGet t "supported_platforms" .vnone) fun platsV0 =>
  Except.bind (pyDictGet t "auto_generated_guid" (.vstr "")) fun guidV =>
  let name := md_escape_inlineV nameV
  let descV := pyOr descV0 (PyVal.vstr "")
  let platsV := pyOr platsV0 (PyVal.vlist [])
  let guid := md_escape_inlineV guidV
  Except.bind (if pyTruthy platsV then fmt_platformsV platsV else Except.ok "") fun platStr =>
  Except.bind (pyDictGet t "input_arguments" .vnone) fun argsV0 =>
  let argsV := pyOr argsV0 (PyVal.vdict [])
  Except.bind (match argsV with
               | .vdict entries => mapEV inputRowV entries
               | _ => Except.ok []) fun rows =>
  Except.bind (pyDictGet t "executor" .vnone) fun exV0 =>
  let exV := pyOr exV0 (PyVal.vdict [])
  let ex_name := exNameOfV exV
  let cmdV := cmdOfV exV
  let cleanupV := cleanupOfV exV
  let elevTxt := match elevOfV exV with
    | .vbool true => "  Elevation Required (e.g. root or admin) "
    | _ => ""
  Except.ok
    (["## " ++ ("Atomic Test #" ++ (toString idx ++ (" - " ++ name)))]
     ++ (if pyTruthy descV then [md_escape_inlineV descV, ""] else [])
     ++ (if pyTruthy platsV then ["**Supported Platforms:** " ++ platStr, ""] else [])
     ++ (if guid = "" then [] else ["**auto_generated_guid:** " ++ guid, ""])
     ++ ["", "", "", ""]
     ++ (match argsV with
         | .vdict entries =>
           if entries.isEmpty then []
           else
             ["#### Inputs:",
              "| Name | Description | Type | Default Value |",
              "|------|-------------|------|---------------|"]
             ++ rows ++ ["", ""]
         | _ => [])
     ++ ((if ex_name = "" then ["#### Attack Commands:", ""]
          else ["#### Attack Commands: Run with `" ++ (ex_name ++ ("`!" ++ elevTxt)), ""])
         ++ (if pyTruthy cmdV then
               ["```" ++ code_fence_lang ex_name, md_escape_inlineV cmdV, "```", ""]
             else [])
         ++ (if pyTruthy cleanupV then
               ["#### Cleanup Commands:", "```" ++ code_fence_lang ex_name,
                md_escape_inlineV cleanupV, "```", "", ""]
             else []))
     ++ ["", "<br/>", "<br/>", ""])

/-- Monadic indexed map over the iterated tests. -/
def mapIdxFromEV (f : Nat → PyVal → Except String (List String)) :
    Nat → List PyVal → Except String (List String)
  | _, [] => Except.ok []
  | i, t :: ts =>
    Except.bind (f i t) fun x =>
    Except.bind (mapIdxFromEV f (i + 1) ts) fun rest =>
    Except.ok (x ++ rest)

/-- `build_markdown` on the loosely-typed parsed document, in the error
monad: every field access that can raise in the source can raise here.
The top-level accesses mirror lines 114-224 of the source; the TOC
loop runs (and can raise) before any section is rendered. -/
def build_markdownV (doc : PyVal) (attack_desc : Option String) : Except String String :=
  Except.bind (pyDictGet doc "attack_technique" (.vstr "")) fun techV =>
  Except.bind (pyDictGet doc "name" (.vstr "")) fun nameDefV =>
  Except.bind (pyDictGet doc "display_name" nameDefV) fun displayV =>
  let tech := md_escape_inlineV techV
  let display := md_escape_inlineV displayV
  Except.bind (pyDictGet doc "atomic_tests" .vnone) fun testsV0 =>
  let testsV := pyOr testsV0 (PyVal.vlist [])
  Except.bind (pyIter testsV) fun tests =>
  Except.bind (mapIdxFromEV tocPairV 1 tests) fun toc =>
  Except.bind (mapIdxFromEV sectionLinesV 1 tests) fun secs =>
  Except.ok
    (rstrip (String.intercalate "\n"
      ((((headerCore tech display (adLine attack_desc) ++ toc) ++ ["", "<br/>", ""]) ++ secs)
        ++ ["<br/>"])) ++ "\n")

/-- Claim C5, counterexample: a top-level mapping — accepted by the
load check `isinstance(doc, dict)` — whose `atomic_tests` holds a
single null entry makes the renderer raise `AttributeError` at
`t.get("name", ...)` instead of degrading to a default: the renderer
is not total on documents that merely parse to a top-level mapping. -/
theorem build_markdownV_counterexample :
    build_markdownV (.vdict [("atomic_tests", .vlist [.vnone])]) none
      = Except.error "AttributeError: get" ∧
    ∀ s : String,
      build_markdownV (.vdict [("atomic_tests", .vlist [.vnone])]) none ≠ Except.ok s :=
  ⟨rfl, fun _ h => by cases h⟩

end AtomicMd
namespace AtomicMd

/-- A present string field, or a default parsed value when absent. -/
def strVal (o : Option String) (d : PyVal) : PyVal :=
  match o with
  | some s => .vstr s
  | none => d

/-- One optional key of a mapping: present fields contribute one entry,
absent fields contribute none. -/
def optChunk {α : Type} (k : String) (f : α → PyVal) (o : Option α) :
    List (String × PyVal) :=
  match o with
  | some x => [(k, f x)]
  | none => []

/-- Unfolding lemma for `lookup` on a cons cell. -/
theorem lookup_cons (k : String) (v : PyVal) (rest : List (String × PyVal)) (key : String) :
    lookup ((k, v) :: rest) key = if k = key then some v else lookup rest key := rfl

/-- Looking up the chunk's own key. -/
theorem lookup_optChunk_hit {α : Type} (k : String) (f : α → PyVal) (o : Option α)
    (rest : List (String × PyVal)) :
    lookup (optChunk k f o ++ rest) k
      = match o with | some x => some (f x) | none => lookup rest k := by
  cases o with
  | none => rfl
  | some x =>
    show lookup ((k, f x) :: rest) k = some (f x)
    rw [lookup_cons, if_pos rfl]

/-- Looking up a different key skips the chunk. -/
theorem lookup_optChunk_miss {α : Type} (k key : String) (f : α → PyVal) (o : Option α)
    (rest : List (String × PyVal)) (h : k ≠ key) :
    lookup (optChunk k f o ++ rest) key = lookup rest key := by
  cases o with
  | none => rfl
  | some x =>
    show lookup ((k, f x) :: rest) key = lookup rest key
    rw [lookup_cons, if_neg h]

/-- Looking up the final chunk's own key. -/
theorem lookup_optChunk_only_hit {α : Type} (k : String) (f : α → PyVal) (o : Option α) :
    lookup (optChunk k f o) k = match o with | some x => some (f x) | none => none := by
  cases o with
  | none => rfl
  | some x =>
    show lookup [(k, f x)] k = some (f x)
    rw [lookup_cons, if_pos rfl]

/-- Looking up a different key beyond the final chunk finds nothing. -/
theorem lookup_optChunk_only_miss {α : Type} (k key : String) (f : α → PyVal) (o : Option α)
    (h : k ≠ key) : lookup (optChunk k f o) key = none := by
  cases o with
  | none => rfl
  | some x =>
    show lookup [(k, f x)] key = none
    rw [lookup_cons, if_neg h]
    rfl

/-- The parsed form of a well-typed parameter specification. -/
def ParamSpec.toPyVal (p : ParamSpec) : PyVal :=
  .vdict (optChunk "description" PyVal.vstr p.description
    ++ (optChunk "type" PyVal.vstr p.type
    ++ optChunk "default" PyVal.vstr p.default))

/-- The parsed form of one `input_arguments` value (`null` when the
specification is absent). -/
def paramEntryVal : Option ParamSpec → PyVal
  | some ps => ps.toPyVal
  | none => .vnone

/-- The parsed form of a well-typed executor mapping. -/
def Executor.toPyVal (e : Executor) : PyVal :=
  .vdict (optChunk "name" PyVal.vstr e.name
    ++ (optChunk "command" PyVal.vstr e.command
    ++ (optChunk "cleanup_command" PyVal.vstr e.cleanup_command
    ++ optChunk "elevation_required" PyVal.vbool e.elevation_required)))

/-- The parsed executor value of a test (`null` when absent). -/
def execVal : Option Executor → PyVal
  | some e => e.toPyVal
  | none => .vnone

/-- The parsed `input_arguments` value of a test (`null` when absent). -/
def argsVal : Option (List (String × Option ParamSpec)) → PyVal
  | some entries => .vdict (entries.map (fun kv => (kv.1, paramEntryVal kv.2)))
  | none => .vnone

/-- The parsed `supported_platforms` value of a test (`null` when
absent). -/
def strListVal : Option (List String) → PyVal
  | some l => .vlist (l.map PyVal.vstr)
  | none => .vnone

/-- The parsed form of a well-typed test record. -/
def AtomicTest.toPyVal (t : AtomicTest) : PyVal :=
  .vdict (optChunk "name" PyVal.vstr t.name
    ++ (optChunk "description" PyVal.vstr t.description
    ++ (optChunk "supported_platforms" (fun l => PyVal.vlist (l.map PyVal.vstr))
          t.supported_platforms
    ++ (optChunk "auto_generated_guid" PyVal.vstr t.auto_generated_guid
    ++ (optChunk "input_arguments"
          (fun entries => PyVal.vdict (entries.map (fun kv => (kv.1, paramEntryVal kv.2))))
          t.input_arguments
    ++ optChunk "executor" Executor.toPyVal t.executor)))))

/-- The parsed form of a well-typed top-level document. -/
def AtomicDoc.toPyVal (doc : AtomicDoc) : PyVal :=
  .vdict (optChunk "attack_technique" PyVal.vstr doc.attack_technique
    ++ (optChunk "display_name" PyVal.vstr doc.display_name
    ++ (optChunk "name" PyVal.vstr doc.name
    ++ optChunk "atomic_tests" (fun ts => PyVal.vlist (ts.map AtomicTest.toPyVal))
          doc.atomic_tests)))

/-- `t.get("name", d)` on a well-typed record. -/
theorem testGet_name (t : AtomicTest) (d : PyVal) :
    pyDictGet (AtomicTest.toPyVal t) "name" d = Except.ok (strVal t.name d) := by
  simp only [AtomicTest.toPyVal, pyDictGet]
  rw [lookup_optChunk_hit]
  cases t.name with
  | some s => rfl
  | none =>
    rw [lookup_optChunk_miss _ _ _ _ _ (by decide),
      lookup_optChunk_miss _ _ _ _ _ (by decide),
      lookup_optChunk_miss _ _ _ _ _ (by decide),
      lookup_optChunk_miss _ _ _ _ _ (by decide),
      lookup_optChunk_only_miss _ _ _ _ (by decide)]
    rfl

/-- `t.get("description")` on a well-typed record. -/
theorem testGet_description (t : AtomicTest) :
    pyDictGet (AtomicTest.toPyVal t) "description" .vnone
      = Except.ok (strVal t.description .vnone) := by
  simp only [AtomicTest.toPyVal, pyDictGet]
  rw [lookup_optChunk_miss _ _ _ _ _ (by decide), lookup_optChunk_hit]
  cases t.description with
  | some s => rfl
  | none =>
    rw [lookup_optChunk_miss _ _ _ _ _ (by decide),
      lookup_optChunk_miss _ _ _ _ _ (by decide),
      lookup_optChunk_miss _ _ _ _ _ (by decide),
      lookup_optChunk_only_miss _ _ _ _ (by decide)]
    rfl

/-- `t.get("supported_platforms")` on a well-typed record. -/
theorem testGet_platforms (t : AtomicTest) :
    pyDictGet (AtomicTest.toPyVal t) "supported_platforms" .vnone
      = Except.ok (strListVal t.supported_platforms) := by
  simp only [AtomicTest.toPyVal, pyDictGet]
  rw [lookup_optChunk_miss _ _ _ _ _ (by decide),
    lookup_optChunk_miss _ _ _ _ _ (by decide), lookup_optChunk_hit]
  cases t.supported_platforms with
  | some l => rfl
  | none =>
    rw [lookup_optChunk_miss _ _ _ _ _ (by decide),
      lookup_optChunk_miss _ _ _ _ _ (by decide),
      lookup_optChunk_only_miss _ _ _ _ (by decide)]
    rfl

/-- `t.get("auto_generated_guid", "")` on a well-typed record. -/
theorem testGet_guid (t : AtomicTest) :
    pyDictGet (AtomicTest.toPyVal t) "auto_generated_guid" (.vstr "")
      = Except.ok (strVal t.auto_generated_guid (.vstr "")) := by
  simp only [AtomicTest.toPyVal, pyDictGet]
  rw [lookup_optChunk_miss _ _ _ _ _ (by decide),
    lookup_optChunk_miss _ _ _ _ _ (by decide),
    lookup_optChunk_miss _ _ _ _ _ (by decide), lookup_optChunk_hit]
  cases t.auto_generated_guid with
  | some s => rfl
  | none =>
    rw [lookup_optChunk_miss _ _ _ _ _ (by decide),
      lookup_optChunk_only_miss _ _ _ _ (by decide)]
    rfl

/-- `t.get("input_arguments")` on a well-typed record. -/
theorem testGet_args (t : AtomicTest) :
    pyDictGet (AtomicTest.toPyVal t) "input_arguments" .vnone
      = Except.ok (argsVal t.input_arguments) := by
  simp only [AtomicTest.toPyVal, pyDictGet]
  rw [lookup_optChunk_miss _ _ _ _ _ (by decide),
    lookup_optChunk_miss _ _ _ _ _ (by decide),
    lookup_optChunk_miss _ _ _ _ _ (by decide),
    lookup_optChunk_miss _ _ _ _ _ (by decide), lookup_optChunk_hit]
  cases t.input_arguments with
  | some entries => rfl
  | none =>
    rw [lookup_optChunk_only_miss _ _ _ _ (by decide)]
    rfl

/-- `t.get("executor")` on a well-typed record. -/
theorem testGet_executor (t : AtomicTest) :
    pyDictGet (AtomicTest.toPyVal t) "executor" .vnone
      = Except.ok (execVal t.executor) := by
  simp only [AtomicTest.toPyVal, pyDictGet]
  rw [lookup_optChunk_miss _ _ _ _ _ (by decide),
    lookup_optChunk_miss _ _ _ _ _ (by decide),
    lookup_optChunk_miss _ _ _ _ _ (by decide),
    lookup_optChunk_miss _ _ _ _ _ (by decide),
    lookup_optChunk_miss _ _ _ _ _ (by decide), lookup_optChunk_only_hit]
  cases t.executor with
  | some e => rfl
  | none => rfl

/-- `doc.get("attack_technique", "")` on a well-typed document. -/
theorem docGet_tech (doc : AtomicDoc) :
    pyDictGet (AtomicDoc.toPyVal doc) "attack_technique" (.vstr "")
      = Except.ok (strVal doc.attack_technique (.vstr "")) := by
  simp only [AtomicDoc.toPyVal, pyDictGet]
  rw [lookup_optChunk_hit]
  cases doc.attack_technique with
  | some s => rfl
  | none =>
    rw [lookup_optChunk_miss _ _ _ _ _ (by decide),
      lookup_optChunk_miss _ _ _ _ _ (by decide),
      lookup_optChunk_only_miss _ _ _ _ (by decide)]
    rfl

/-- `doc.get("name", "")` on a well-typed document. -/
theorem docGet_name (doc : AtomicDoc) :
    pyDictGet (AtomicDoc.toPyVal doc) "name" (.vstr "")
      = Except.ok (strVal doc.name (.vstr "")) := by
  simp only [AtomicDoc.toPyVal, pyDictGet]
  rw [lookup_optChunk_miss _ _ _ _ _ (by decide),
    lookup_optChunk_miss _ _ _ _ _ (by decide), lookup_optChunk_hit]
  cases doc.name with
  | some s => rfl
  | none =>
    rw [lookup_optChunk_only_miss _ _ _ _ (by decide)]
    rfl

/-- `doc.get("display_name", d)` on a well-typed document. -/
theorem docGet_display (doc : AtomicDoc) (d : PyVal) :
    pyDictGet (AtomicDoc.toPyVal doc) "display_name" d
      = Except.ok (strVal doc.display_name d) := by
  simp only [AtomicDoc.toPyVal, pyDictGet]
  rw [lookup_optChunk_miss _ _ _ _ _ (by decide), lookup_optChunk_hit]
  cases doc.display_name with
  | some s => rfl
  | none =>
    rw [lookup_optChunk_miss _ _ _ _ _ (by decide),
      lookup_optChunk_only_miss _ _ _ _ (by decide)]
    rfl

/-- `doc.get("atomic_tests")` on a well-typed document. -/
theorem docGet_tests (doc : AtomicDoc) :
    pyDictGet (AtomicDoc.toPyVal doc) "atomic_tests" .vnone
      = Except.ok (match doc.atomic_tests with
          | some ts => PyVal.vlist (ts.map AtomicTest.toPyVal)
          | none => PyVal.vnone) := by
  simp only [AtomicDoc.toPyVal, pyDictGet]
  rw [lookup_optChunk_miss _ _ _ _ _ (by decide),
    lookup_optChunk_miss _ _ _ _ _ (by decide),
    lookup_optChunk_miss _ _ _ _ _ (by decide), lookup_optChunk_only_hit]
  cases doc.atomic_tests with
  | some ts => rfl
  | none => rfl

end AtomicMd
namespace AtomicMd

/-- Binding an `ok` value reduces to the continuation. -/
theorem exceptBind_ok {α β : Type} (a : α) (f : α → Except String β) :
    Except.bind (Except.ok a) f = f a := rfl

/-- Inline-escaping a present-or-defaulted string field agrees with the
typed renderer. -/
theorem inlineV_strVal (o : Option String) (d : String) :
    md_escape_inlineV (strVal o (PyVal.vstr d)) = md_escape_inline (some (o.getD d)) := by
  cases o <;> rfl

/-- Inline-escaping the display name with its nested default agrees
with the typed renderer. -/
theorem inlineV_strVal_nested (o1 o2 : Option String) :
    md_escape_inlineV (strVal o1 (strVal o2 (PyVal.vstr "")))
      = md_escape_inline (some (o1.getD (o2.getD ""))) := by
  cases o1 <;> cases o2 <;> rfl

/-- The description block agrees with the typed renderer. -/
theorem descChunk_eq (o : Option String) :
    (if pyTruthy (pyOr (strVal o PyVal.vnone) (PyVal.vstr "")) then
       [md_escape_inlineV (pyOr (strVal o PyVal.vnone) (PyVal.vstr "")), ""]
     else ([] : List String))
    = (if o.getD "" = "" then [] else [md_escape_inline (some (o.getD "")), ""]) := by
  cases o with
  | none => rfl
  | some s =>
    by_cases hs : s = ""
    · subst hs
      rfl
    · have h1 : pyTruthy (strVal (some s) PyVal.vnone) = true := by
        show (!(s == "")) = true
        simp [hs]
      have h2 : pyOr (strVal (some s) PyVal.vnone) (PyVal.vstr "")
          = strVal (some s) PyVal.vnone := by
        unfold pyOr
        rw [h1, if_pos rfl]
      rw [h2, h1, if_pos rfl, Option.getD_some, if_neg hs]
      rfl

/-- Extracting the strings of a string-list value never fails. -/
theorem mapStrs_map_vstr (l : List String) : mapStrs (l.map PyVal.vstr) = Except.ok l := by
  induction l with
  | nil => rfl
  | cons a rest ih =>
    show Except.bind (pyStrOf (PyVal.vstr a)) _ = _
    rw [show pyStrOf (PyVal.vstr a) = Except.ok a from rfl, exceptBind_ok]
    show Except.bind (mapStrs (rest.map PyVal.vstr)) _ = _
    rw [ih]
    rfl

/-- The conditional platform formatting agrees with the typed
formatter. -/
theorem platformsBind_eq (o : Option (List String)) :
    (if pyTruthy (pyOr (strListVal o) (PyVal.vlist [])) then
       fmt_platformsV (pyOr (strListVal o) (PyVal.vlist []))
     else Except.ok "")
    = Except.ok (fmt_supported_platforms (o.getD [])) := by
  cases o with
  | none => rfl
  | some l =>
    cases l with
    | nil => rfl
    | cons a l' =>
      have h1 : pyTruthy (strListVal (some (a :: l'))) = true := rfl
      have h2 : pyOr (strListVal (some (a :: l'))) (PyVal.vlist [])
          = strListVal (some (a :: l')) := by
        unfold pyOr
        rw [h1, if_pos rfl]
      rw [h2, h1, if_pos rfl]
      show Except.bind (mapStrs ((a :: l').map PyVal.vstr)) _ = _
      rw [mapStrs_map_vstr]
      rfl

/-- The platform line block agrees with the typed renderer. -/
theorem platChunk_eq (o : Option (List String)) :
    (if pyTruthy (pyOr (strListVal o) (PyVal.vlist [])) then
       ["**Supported Platforms:** " ++ fmt_supported_platforms (o.getD []), ""]
     else ([] : List String))
    = (if o.getD [] = [] then []
       else ["**Supported Platforms:** " ++ fmt_supported_platforms (o.getD []), ""]) := by
  cases o with
  | none => rfl
  | some l => cases l with
    | nil => rfl
    | cons a l' => rfl

/-- One well-typed parameter row renders without failing. -/
theorem inputRowV_ok (k : String) (v : Option ParamSpec) :
    inputRowV (k, paramEntryVal v) = Except.ok (inputRow (k, v)) := by
  cases v with
  | none => rfl
  | some ps =>
    obtain ⟨pd, pt, pf⟩ := ps
    cases pd <;> cases pt <;> cases pf <;> rfl

/-- The well-typed parameter table renders without failing. -/
theorem mapEV_params_ok (entries : List (String × Option ParamSpec)) :
    mapEV inputRowV (entries.map (fun kv => (kv.1, paramEntryVal kv.2)))
      = Except.ok (entries.map inputRow) := by
  induction entries with
  | nil => rfl
  | cons kv rest ih =>
    obtain ⟨k, v⟩ := kv
    show Except.bind (inputRowV (k, paramEntryVal v)) _ = _
    rw [inputRowV_ok, exceptBind_ok]
    show Except.bind (mapEV inputRowV (rest.map (fun kv => (kv.1, paramEntryVal kv.2)))) _ = _
    rw [ih]
    rfl

/-- The row computation over a well-typed `input_arguments` value never
fails and agrees with the typed renderer. -/
theorem rowsBind_eq (o : Option (List (String × Option ParamSpec))) :
    (match pyOr (argsVal o) (PyVal.vdict []) with
     | .vdict entries => mapEV inputRowV entries
     | _ => Except.ok [])
    = Except.ok ((o.getD []).map inputRow) := by
  cases o with
  | none => rfl
  | some entries =>
    cases entries with
    | nil => rfl
    | cons kv rest =>
      show mapEV inputRowV (((kv :: rest)).map (fun kv => (kv.1, paramEntryVal kv.2)))
        = Except.ok (((kv :: rest)).map inputRow)
      exact mapEV_params_ok (kv :: rest)

/-- The parameter-table block agrees with the typed renderer. -/
theorem inputsChunk_eq (o : Option (List (String × Option ParamSpec))) :
    (match pyOr (argsVal o) (PyVal.vdict []) with
     | .vdict entries =>
       if entries.isEmpty then []
       else
         ["#### Inputs:",
          "| Name | Description | Type | Default Value |",
          "|------|-------------|------|---------------|"]
         ++ (o.getD []).map inputRow ++ ["", ""]
     | _ => ([] : List String))
    = (if o.getD [] = [] then []
       else
         ["#### Inputs:",
          "| Name | Description | Type | Default Value |",
          "|------|-------------|------|---------------|"]
         ++ (o.getD []).map inputRow ++ ["", ""]) := by
  cases o with
  | none => rfl
  | some entries =>
    cases entries with
    | nil => rfl
    | cons kv rest => rfl

/-- The guarded executor name agrees with the typed renderer. -/
theorem exNameV_eq (o : Option Executor) :
    exNameOfV (pyOr (execVal o) (PyVal.vdict []))
      = (match o with
         | some e => md_escape_inline (some (e.name.getD ""))
         | none => "") := by
  cases o with
  | none => rfl
  | some e =>
    obtain ⟨en, ec, ek, ee⟩ := e
    cases en <;> cases ec <;> cases ek <;> cases ee <;> rfl

/-- The guarded elevation flag text agrees with the typed renderer. -/
theorem elevTxtV_eq (o : Option Executor) :
    (match elevOfV (pyOr (execVal o) (PyVal.vdict [])) with
     | .vbool true => "  Elevation Required (e.g. root or admin) "
     | _ => "")
    = (if (match o with | some e => e.elevation_required | none => none) = some true
       then "  Elevation Required (e.g. root or admin) " else "") := by
  cases o with
  | none => rfl
  | some e =>
    obtain ⟨en, ec, ek, ee⟩ := e
    cases en <;> cases ec <;> cases ek <;> cases ee <;> first
      | rfl
      | (rename_i b; cases b <;> rfl)

/-- The guarded command value agrees with the typed renderer. -/
theorem cmdV_eq (o : Option Executor) :
    cmdOfV (pyOr (execVal o) (PyVal.vdict []))
      = strVal (match o with | some e => e.command | none => none) PyVal.vnone := by
  cases o with
  | none => rfl
  | some e =>
    obtain ⟨en, ec, ek, ee⟩ := e
    cases en <;> cases ec <;> cases ek <;> cases ee <;> rfl

/-- The guarded cleanup value agrees with the typed renderer. -/
theorem cleanupV_eq (o : Option Executor) :
    cleanupOfV (pyOr (execVal o) (PyVal.vdict []))
      = strVal (match o with | some e => e.cleanup_command | none => none) PyVal.vnone := by
  cases o with
  | none => rfl
  | some e =>
    obtain ⟨en, ec, ek, ee⟩ := e
    cases en <;> cases ec <;> cases ek <;> cases ee <;> rfl

/-- The command fence block agrees with the typed renderer. -/
theorem cmdChunk_eq (co : Option String) (exn : String) :
    (if pyTruthy (strVal co PyVal.vnone) then
       ["```" ++ code_fence_lang exn, md_escape_inlineV (strVal co PyVal.vnone), "```", ""]
     else ([] : List String))
    = (match co with
       | some c =>
         if c = "" then []
         else ["```" ++ code_fence_lang exn, md_escape_inline (some c), "```", ""]
       | none => []) := by
  cases co with
  | none => rfl
  | some c =>
    by_cases hc : c = ""
    · subst hc
      rfl
    · have h1 : pyTruthy (strVal (some c) PyVal.vnone) = true := by
        show (!(c == "")) = true
        simp [hc]
      rw [h1]
      show (if (true = true) then
          ["```" ++ code_fence_lang exn, md_escape_inlineV (strVal (some c) PyVal.vnone),
           "```", ""] else [])
        = if c = "" then []
          else ["```" ++ code_fence_lang exn, md_escape_inline (some c), "```", ""]
      rw [if_pos rfl, if_neg hc]
      rfl

/-- The cleanup fence block agrees with the typed renderer. -/
theorem cleanupChunk_eq (co : Option String) (exn : String) :
    (if pyTruthy (strVal co PyVal.vnone) then
       ["#### Cleanup Commands:", "```" ++ code_fence_lang exn,
        md_escape_inlineV (strVal co PyVal.vnone), "```", "", ""]
     else ([] : List String))
    = (match co with
       | some c =>
         if c = "" then []
         else ["#### Cleanup Commands:", "```" ++ code_fence_lang exn,
               md_escape_inline (some c), "```", "", ""]
       | none => []) := by
  cases co with
  | none => rfl
  | some c =>
    by_cases hc : c = ""
    · subst hc
      rfl
    · have h1 : pyTruthy (strVal (some c) PyVal.vnone) = true := by
        show (!(c == "")) = true
        simp [hc]
      rw [h1]
      show (if (true = true) then
          ["#### Cleanup Commands:", "```" ++ code_fence_lang exn,
           md_escape_inlineV (strVal (some c) PyVal.vnone), "```", "", ""] else [])
        = if c = "" then []
          else ["#### Cleanup Commands:", "```" ++ code_fence_lang exn,
                md_escape_inline (some c), "```", "", ""]
      rw [if_pos rfl, if_neg hc]
      rfl

end AtomicMd
namespace AtomicMd

/-- The parsed `atomic_tests` value of a document (`null` when absent). -/
def testsVal : Option (List AtomicTest) → PyVal
  | some ts => .vlist (ts.map AtomicTest.toPyVal)
  | none => .vnone

/-- `doc.get("atomic_tests")` on a well-typed document, packaged form. -/
theorem docGet_tests_val (doc : AtomicDoc) :
    pyDictGet (AtomicDoc.toPyVal doc) "atomic_tests" .vnone
      = Except.ok (testsVal doc.atomic_tests) := by
  rw [docGet_tests]
  cases doc.atomic_tests <;> rfl

/-- Iterating `tests or []` on a well-typed document never fails. -/
theorem testsIter_eq (o : Option (List AtomicTest)) :
    pyIter (pyOr (testsVal o) (PyVal.vlist []))
      = Except.ok ((o.getD []).map AtomicTest.toPyVal) := by
  cases o with
  | none => rfl
  | some ts =>
    cases ts with
    | nil => rfl
    | cons t rest => rfl

/-- One well-typed TOC iteration renders without failing and agrees
with the typed renderer. -/
theorem tocPairV_ok (idx : Nat) (t : AtomicTest) :
    tocPairV idx (AtomicTest.toPyVal t) = Except.ok [tocLine idx t, ""] := by
  simp only [tocPairV, testGet_name, exceptBind_ok, inlineV_strVal]
  simp only [tocLine, headingOf, nameOf]

/-- One well-typed section renders without failing and agrees with the
typed renderer. -/
theorem sectionLinesV_ok (idx : Nat) (t : AtomicTest) :
    sectionLinesV idx (AtomicTest.toPyVal t) = Except.ok (sectionLines idx t) := by
  simp only [sectionLinesV, testGet_name, testGet_description, testGet_platforms,
    testGet_guid, testGet_args, testGet_executor, exceptBind_ok,
    platformsBind_eq, rowsBind_eq]
  simp only [inlineV_strVal, descChunk_eq, platChunk_eq, inputsChunk_eq,
    exNameV_eq, elevTxtV_eq, cmdV_eq, cleanupV_eq, cmdChunk_eq, cleanupChunk_eq]
  simp only [sectionLines, inputsBlock, executorBlock, headingOf, nameOf,
    exNameOf, elevOf, cmdOf, cleanupOf]

/-- The monadic indexed map agrees with the typed one whenever the body
does. -/
theorem mapIdxFromEV_ok (f : Nat → PyVal → Except String (List String))
    (g : Nat → AtomicTest → List String)
    (hf : ∀ i t, f i (AtomicTest.toPyVal t) = Except.ok (g i t)) :
    ∀ (i : Nat) (ts : List AtomicTest),
      mapIdxFromEV f i (ts.map AtomicTest.toPyVal) = Except.ok (mapIdxFrom g i ts) := by
  intro i ts
  induction ts generalizing i with
  | nil => rfl
  | cons t rest ih =>
    show Except.bind (f i (AtomicTest.toPyVal t)) _ = _
    rw [hf i t, exceptBind_ok]
    show Except.bind (mapIdxFromEV f (i + 1) (rest.map AtomicTest.toPyVal)) _ = _
    rw [ih (i + 1), exceptBind_ok]
    rfl

/-- Claim C5, amended: on every well-typed document — one whose fields,
tests, parameters and executors have the shapes the renderer handles —
the loosely-typed renderer raises no exception and returns exactly the
typed rendering, so `build_markdown` completes for any combination of
present and absent optional fields.  Totality does not extend to every
document that merely parses to a top-level mapping: see the
counterexample, where a null test record raises `AttributeError`. -/
theorem build_markdown_total_on_well_typed (doc : AtomicDoc) (ad : Option String) :
    build_markdownV (AtomicDoc.toPyVal doc) ad = Except.ok (build_markdown doc ad) := by
  simp only [build_markdownV, docGet_tech, docGet_name, docGet_display, docGet_tests_val,
    testsIter_eq, exceptBind_ok]
  rw [mapIdxFromEV_ok tocPairV (fun i t => [tocLine i t, ""]) tocPairV_ok 1
      (doc.atomic_tests.getD []), exceptBind_ok,
    mapIdxFromEV_ok sectionLinesV sectionLines sectionLinesV_ok 1
      (doc.atomic_tests.getD []), exceptBind_ok]
  simp only [inlineV_strVal_nested, inlineV_strVal]
  simp only [build_markdown, buildLines, headerLines, getTests, List.append_assoc]

end AtomicMd
